import Mathlib

/-!
Verification of the audio-hub dashboard's data-fetch orchestration layer
(`src/js/dashboard.js`): the background participant loader of `ApiService`
(`startBackgroundParticipantLoading`, `processParticipantQueue`,
`cancelParticipantLoading`, `getSpaceParticipants`), the Dashboard's
per-space retry monitor (`Dashboard.processParticipantQueue`,
`Dashboard.loadParticipantsForSpace`), pagination
(`Dashboard.loadSpaces`, `Dashboard.loadMoreSpaces`, `setupInfiniteScroll`)
and display sorting (`Dashboard.sortSpaces`, `Dashboard.getRelevantDate`).

The JavaScript is embedded shallowly.  The UI thread is single threaded and
cooperative: handlers run to completion between `await` suspension points,
so each synchronous stretch of the source becomes one atomic step of an
executable step function, and the interleaving of suspended coroutines,
network completions and user events is chosen by a command list.
JavaScript objects used as maps become association lists (a cons overwrite
shadows older entries, as assignment does); `undefined` versus `null`
cache entries become `Option (Option Roster)` at the lookup level
(`none` = no entry / unknown, `some none` = the explicit `null` written on a
404, `some (some r)` = a cached roster); JS truthiness tests on cache
entries (`!cache[id]`, `if (cache[id])`) are embedded exactly as the tests
they are, namely "is there a non-null entry".  `AbortController` instances
become generation numbers: `abort()` adds the generation to a persistent
set, and a fetch holding an aborted generation settles as the
`"Request cancelled"` rejection, which is what `fetch` does to an aborted
request.
-/

namespace DashboardSpec

abbrev SpaceId := String

/-- A participant roster as returned by `GET /spaces/{id}/participants`.
Claims never inspect the payload beyond identity, so the fields other than
the total are not modelled. -/
structure Roster where
  totalParticipants : Nat
  deriving DecidableEq, Repr

/-- A space row as consumed by the loader and the sort
(`space._id`, `space.title`, `space.isLive` and the four timestamp fields
read by `getRelevantDate`).  Timestamps are modelled as already-parsed
epoch values; `none` is an absent (or empty, hence falsy) field. -/
structure Space where
  _id : SpaceId
  title : String
  isLive : Bool
  lastUpdated : Option Int
  endedAt : Option Int
  startedAt : Option Int
  createdAt : Option Int
  deriving DecidableEq, Repr

/-- `leadMatch pat cs` holds when `pat` occurs at the head of `cs`. -/
def leadMatch : List Char → List Char → Bool
  | [], _ => true
  | _ :: _, [] => false
  | p :: ps, c :: cs => p = c && leadMatch ps cs

/-- Occurrence of `pat` anywhere in `cs`. -/
def listIncludes (pat : List Char) : List Char → Bool
  | [] => leadMatch pat []
  | c :: cs => leadMatch pat (c :: cs) || listIncludes pat cs

/-- `error.message.includes('404')`, the error classification used by
`getSpaceParticipants`. -/
def includes404 (msg : String) : Bool :=
  listIncludes "404".data msg.data

/-- The participants cache `api.participantsCache`, a JS object keyed by
space id.  A cons with the same key shadows the older entry, which is the
overwrite semantics of property assignment. -/
abbrev Cache := List (SpaceId × Option Roster)

/-- Truthiness of `participantsCache[id]`: only a non-null roster entry is
truthy; a missing entry (`undefined`) and the explicit `null` are falsy. -/
def cacheTruthy (c : Cache) (id : SpaceId) : Bool :=
  match c.lookup id with
  | some (some _) => true
  | _ => false

/-- One queued roster fetch, a `LoadTask` of the queue built by
`startBackgroundParticipantLoading`.  `taskId` is ghost instrumentation (a
creation serial number) used only to state which task an observed callback
belongs to; it does not influence any step. -/
structure LoadTask where
  taskId : Nat
  spaceId : SpaceId
  spaceTitle : String
  deriving DecidableEq, Repr

/-- Result of one network fetch, chosen by the environment. -/
inductive FetchOutcome where
  | success (data : Roster)
  | failure (msg : String)
  deriving DecidableEq, Repr

/-- Observable events of the loader: a network request leaving, an
`onLoaded` callback running, a cancellation, and the inter-batch pause. -/
inductive Event where
  | fetchIssued (taskId : Nat) (id : SpaceId)
  | callbackRun (taskId : Nat) (id : SpaceId)
  | cancelled
  | paused (ms : Nat)
  deriving DecidableEq, Repr

/-- Control state of one invocation of the `processParticipantQueue` drain
loop, between suspension points: suspended at `Promise.allSettled` with the
batch it spliced and the abort generation its fetches captured, suspended
in the 200ms inter-batch `setTimeout`, or returned. -/
inductive DrainPC where
  | awaitingBatch (fetching : List LoadTask) (gen : Option Nat)
  | sleeping
  | done
  deriving DecidableEq, Repr

/-- The mutable fields of `ApiService` touched by the participant loader,
plus the suspended drain-loop invocations and the ghost event log.
`controller` is the current `participantLoadingAbortController`
(a generation number or `null`), `aborted` the set of generations whose
`abort()` has run, `nextGen`/`nextTask` fresh-name counters. -/
structure LoaderState where
  cache : Cache
  queue : List LoadTask
  isLoadingParticipants : Bool
  controller : Option Nat
  nextGen : Nat
  nextTask : Nat
  aborted : List Nat
  drains : List DrainPC
  log : List Event
  deriving DecidableEq, Repr

/-- `signal.aborted` for a captured signal; `none` is the optional-chaining
`undefined`, which is falsy. -/
def genAborted (s : LoaderState) (g : Option Nat) : Bool :=
  match g with
  | some n => s.aborted.contains n
  | none => false

/-- `this.participantLoadingAbortController?.signal.aborted`. -/
def controllerAborted (s : LoaderState) : Bool :=
  genAborted s s.controller

/-- The synchronous prefix of each batch arrow function: for every spliced
task, `getSpaceParticipants` first consults the cache; a truthy entry
resolves immediately and the task's callback runs with the cached roster
(before any other event can intervene), otherwise the network request is
issued.  Returns the tasks that are genuinely in flight. -/
def issueBatch : LoaderState → List LoadTask → LoaderState × List LoadTask
  | s, [] => (s, [])
  | s, t :: ts =>
    if cacheTruthy s.cache t.spaceId then
      issueBatch { s with log := s.log ++ [Event.callbackRun t.taskId t.spaceId] } ts
    else
      let s' := { s with log := s.log ++ [Event.fetchIssued t.taskId t.spaceId] }
      let (s'', rest) := issueBatch s' ts
      (s'', t :: rest)

/-- One pass of the drain loop from the top of its `while`: exit when the
queue is empty or the current controller is aborted (resetting
`isLoadingParticipants`), otherwise splice `participantQueue.splice(0, 5)`
as the next batch, capture the current controller's signal, issue the
fetches and suspend at `Promise.allSettled`. -/
def drainRun (s : LoaderState) : LoaderState × DrainPC :=
  if s.queue.isEmpty then
    ({ s with isLoadingParticipants := false }, DrainPC.done)
  else if controllerAborted s then
    ({ s with isLoadingParticipants := false }, DrainPC.done)
  else
    let batch := s.queue.take 5
    let gen := s.controller
    let s' := { s with queue := s.queue.drop 5 }
    let r := issueBatch s' batch
    (r.1, DrainPC.awaitingBatch r.2 gen)

/-- Delivery of one settled fetch inside the batch handler: a fulfilled
fetch stores the roster in the cache and runs the task's callback; a
rejection whose message contains `'404'` stores the explicit `null`; any
other rejection (including `'Request cancelled'`) changes nothing and runs
no callback. -/
def settleTask (s : LoaderState) (t : LoadTask) : FetchOutcome → LoaderState
  | FetchOutcome.success r =>
    { s with cache := (t.spaceId, some r) :: s.cache,
             log := s.log ++ [Event.callbackRun t.taskId t.spaceId] }
  | FetchOutcome.failure m =>
    if includes404 m then
      { s with cache := (t.spaceId, (none : Option Roster)) :: s.cache }
    else s

/-- A fetch whose captured signal is aborted settles as the
`'Request cancelled'` rejection regardless of the network. -/
def effOutcome (s : LoaderState) (gen : Option Nat) (o : FetchOutcome) : FetchOutcome :=
  if genAborted s gen then FetchOutcome.failure "Request cancelled" else o

/-- `Promise.allSettled` of one batch: every fetch settles (missing
environment entries default to a transport failure; one failure never
aborts the batch) and each result is handled by `settleTask`. -/
def settleBatchTasks (s : LoaderState) (gen : Option Nat) :
    List LoadTask → List FetchOutcome → LoaderState
  | [], _ => s
  | t :: ts, [] =>
    settleBatchTasks (settleTask s t (effOutcome s gen (FetchOutcome.failure "network error")))
      gen ts []
  | t :: ts, o :: os =>
    settleBatchTasks (settleTask s t (effOutcome s gen o)) gen ts os

/-- After a batch settles: with work remaining the loop suspends in the
200ms `setTimeout`; otherwise the `while` condition fails and the loop
returns, clearing `isLoadingParticipants`. -/
def resumeAfterSettle (s : LoaderState) : LoaderState × DrainPC :=
  if s.queue.isEmpty then ({ s with isLoadingParticipants := false }, DrainPC.done)
  else ({ s with log := s.log ++ [Event.paused 200] }, DrainPC.sleeping)

/-- `ApiService.cancelParticipantLoading`: abort and drop the current
controller, clear the queue, reset the draining flag.  Suspended drain
invocations are untouched — `abort()` does not unwind them. -/
def cancelParticipantLoading (s : LoaderState) : LoaderState :=
  let s' :=
    match s.controller with
    | some g => { s with aborted := g :: s.aborted, controller := none }
    | none => s
  { s' with queue := [], isLoadingParticipants := false,
            log := s'.log ++ [Event.cancelled] }

/-- Number the freshly created `LoadTask`s of one enqueue call. -/
def assignTasks (firstId : Nat) : List Space → List LoadTask
  | [] => []
  | sp :: sps => ⟨firstId, sp._id, sp.title⟩ :: assignTasks (firstId + 1) sps

/-- `ApiService.startBackgroundParticipantLoading(spaces, cb)`: return on an
empty argument; otherwise cancel any existing loading, keep the spaces with
a falsy cache entry and a truthy id, replace the queue with their tasks
under a fresh abort controller, and call `processParticipantQueue`, whose
synchronous prefix (the guard, the flag, and the first pass of the loop up
to `Promise.allSettled`) runs before control returns. -/
def startBackgroundParticipantLoading (s : LoaderState) (spaces : List Space) : LoaderState :=
  if spaces.isEmpty then s
  else
    let s₁ := cancelParticipantLoading s
    let toLoad := spaces.filter fun sp => !cacheTruthy s₁.cache sp._id && sp._id ≠ ""
    if toLoad.isEmpty then s₁
    else
      let s₂ := { s₁ with controller := some s₁.nextGen, nextGen := s₁.nextGen + 1 }
      let tasks := assignTasks s₂.nextTask toLoad
      let s₃ := { s₂ with queue := tasks, nextTask := s₂.nextTask + toLoad.length }
      if s₃.isLoadingParticipants then s₃
      else if s₃.queue.isEmpty then s₃
      else
        let s₄ := { s₃ with isLoadingParticipants := true }
        let r := drainRun s₄
        { r.1 with drains := r.1.drains ++ [r.2] }

/-- The state an enqueue call reaches just before its inline drain pass
when it has work to do (`toLoad` non-empty): existing loading cancelled,
fresh controller, the queue replaced by the new tasks, draining flag set.
`startBackgroundParticipantLoading` is definitionally `drainRun` applied
to this state on that path; the lemma `enqueue_shape` below makes the
three possible shapes of an enqueue call explicit. -/
def enqueueReady (s : LoaderState) (toLoad : List Space) : LoaderState :=
  let s₁ := cancelParticipantLoading s
  { s₁ with controller := some s₁.nextGen, nextGen := s₁.nextGen + 1,
            queue := assignTasks s₁.nextTask toLoad,
            nextTask := s₁.nextTask + toLoad.length,
            isLoadingParticipants := true }

/-- The externally scheduled transitions of the loader: an enqueue call, a
cancel call, the settling of the batch a particular suspended drain is
awaiting (with the environment's outcomes), and the firing of a particular
drain's inter-batch timer. -/
inductive Cmd where
  | enqueue (spaces : List Space)
  | cancel
  | settle (i : Nat) (outs : List FetchOutcome)
  | wake (i : Nat)
  deriving Repr

/-- One atomic step of the loader. -/
def stepCmd (s : LoaderState) : Cmd → LoaderState
  | Cmd.enqueue sps => startBackgroundParticipantLoading s sps
  | Cmd.cancel => cancelParticipantLoading s
  | Cmd.settle i outs =>
    match s.drains.get? i with
    | some (DrainPC.awaitingBatch ts gen) =>
      let r := resumeAfterSettle (settleBatchTasks s gen ts outs)
      { r.1 with drains := r.1.drains.set i r.2 }
    | _ => s
  | Cmd.wake i =>
    match s.drains.get? i with
    | some DrainPC.sleeping =>
      let r := drainRun s
      { r.1 with drains := r.1.drains.set i r.2 }
    | _ => s

/-- Run a schedule of steps. -/
def runCmds (s : LoaderState) : List Cmd → LoaderState
  | [] => s
  | c :: cs => runCmds (stepCmd s c) cs

/-- A fresh `ApiService`. -/
def initLoader : LoaderState :=
  { cache := [], queue := [], isLoadingParticipants := false, controller := none,
    nextGen := 0, nextTask := 0, aborted := [], drains := [], log := [] }

/-!
The Dashboard's own periodic participant monitor
(`setupParticipantQueueMonitor` → `Dashboard.processParticipantQueue` →
`Dashboard.loadParticipantsForSpace`): a `Set` of space ids still needing
data, a `Map` of in-flight loads, a `Map` of retry counters with
`maxRetryAttempts = 3`, sharing `api.participantsCache` through
`api.getSpaceParticipants`.  Sets and maps keep insertion order, so they
are embedded as duplicate-free lists and association lists.
-/

/-- Dashboard-side monitor state: `spacesNeedingParticipants`,
`participantsLoadingQueue` (its key set), `participantRetryAttempts`, the
shared `api.participantsCache`, and ghost logs of issued fetches and of
`onParticipantDataLoaded` calls. -/
structure DashState where
  needing : List SpaceId
  loadingQ : List SpaceId
  retryA : List (SpaceId × Nat)
  cache : Cache
  fetches : List SpaceId
  callbacks : List SpaceId
  deriving DecidableEq, Repr

/-- `participantRetryAttempts.get(id) || 0`. -/
def retryGet (s : DashState) (id : SpaceId) : Nat :=
  (s.retryA.lookup id).getD 0

/-- `Dashboard.loadParticipantsForSpace` up to its `await`: bail out if the
space is already loading, otherwise mark it loading and call
`api.getSpaceParticipants(id)`, whose own synchronous prefix resolves a
truthy cache entry immediately (success path runs at once) and otherwise
issues the network request. -/
def loadParticipantsForSpace (s : DashState) (id : SpaceId) : DashState :=
  if s.loadingQ.contains id then s
  else
    let s' := { s with loadingQ := s.loadingQ ++ [id] }
    match s'.cache.lookup id with
    | some (some _) =>
      { s' with callbacks := s'.callbacks ++ [id],
                needing := s'.needing.filter (· ≠ id),
                loadingQ := s'.loadingQ.filter (· ≠ id),
                retryA := s'.retryA.filter (·.1 ≠ id) }
    | _ => { s' with fetches := s'.fetches ++ [id] }

/-- The body of `Dashboard.processParticipantQueue` for one candidate id:
skip an id already loading; prune an id whose retry counter has reached
`maxRetryAttempts` (3), dropping its counter; otherwise start loading it
(without awaiting). -/
def tickOne (s : DashState) (id : SpaceId) : DashState :=
  if s.loadingQ.contains id then s
  else if 3 ≤ retryGet s id then
    { s with needing := s.needing.filter (· ≠ id),
             retryA := s.retryA.filter (·.1 ≠ id) }
  else loadParticipantsForSpace s id

/-- One firing of the 2-second monitor interval
(`Dashboard.processParticipantQueue`): nothing to do when no space needs
participants, otherwise handle the first three ids of the needing set. -/
def monitorTick (s : DashState) : DashState :=
  if s.needing.isEmpty then s
  else (s.needing.take 3).foldl tickOne s

/-- Delivery of the awaited `api.getSpaceParticipants` result inside
`loadParticipantsForSpace`: on success the roster is cached (by
`getSpaceParticipants`), the UI callback runs and all tracking for the
space is cleared; on failure the retry counter is incremented, the space
leaves the loading queue, a message containing `'404'` caches the explicit
`null`, and a counter that has reached the maximum removes the space from
the needing set. -/
def completeLoad (s : DashState) (id : SpaceId) : FetchOutcome → DashState
  | FetchOutcome.success r =>
    if s.loadingQ.contains id then
      { s with cache := (id, some r) :: s.cache,
               callbacks := s.callbacks ++ [id],
               needing := s.needing.filter (· ≠ id),
               loadingQ := s.loadingQ.filter (· ≠ id),
               retryA := s.retryA.filter (·.1 ≠ id) }
    else s
  | FetchOutcome.failure m =>
    if s.loadingQ.contains id then
      let cur := retryGet s id
      let s₁ :=
        if includes404 m then
          { s with cache := (id, (none : Option Roster)) :: s.cache }
        else s
      let s₂ := { s₁ with retryA := (id, cur + 1) :: s₁.retryA.filter (·.1 ≠ id),
                          loadingQ := s₁.loadingQ.filter (· ≠ id) }
      if 3 ≤ cur + 1 then { s₂ with needing := s₂.needing.filter (· ≠ id) }
      else s₂
    else s

/-- Scheduled transitions of the monitor: an interval firing, or the
settling of one in-flight fetch with the environment's outcome. -/
inductive DCmd where
  | tick
  | complete (id : SpaceId) (out : FetchOutcome)
  deriving Repr

/-- One atomic monitor step. -/
def dStep (s : DashState) : DCmd → DashState
  | DCmd.tick => monitorTick s
  | DCmd.complete id out => completeLoad s id out

/-- Run a schedule of monitor steps. -/
def dRun (s : DashState) : List DCmd → DashState
  | [] => s
  | c :: cs => dRun (dStep s c) cs

/-- Monitor state right after `trackSpacesNeedingParticipants` has recorded
the given uncached ids. -/
def initDash (needing : List SpaceId) : DashState :=
  { needing := needing, loadingQ := [], retryA := [], cache := [],
    fetches := [], callbacks := [] }

/-!
Pagination (`Dashboard.loadSpaces`, `Dashboard.loadMoreSpaces`, the scroll
trigger of `setupInfiniteScroll`).  A page request is `(offset, limit)`
with `pageSize = 20`; the response is `some (items, hasMore)` or `none`
for a rejected request.  `loadMoreSpaces` spans an `await`, so it is two
steps: the synchronous prefix up to the request (guard, `isLoading`,
request issue) and the completion handler.
-/

/-- `this.pageSize`. -/
def pageSize : Nat := 20

/-- A page response: the `data` array and `hasMore`. -/
abbrev PageResp := List Space × Bool

/-- Pagination state of `Dashboard` plus ghost logs: issued requests
`(offset, limit)`, completed successful windows `(offset, received)`,
and the two failure surfaces (the inline `<div class="error">` written by
`loadSpaces` and the transient `Utils.showMessage` toast shown by
`loadMoreSpaces`). -/
structure PageState where
  currentOffset : Nat
  isLoading : Bool
  hasMore : Bool
  allSpaces : List Space
  pending : Option Nat
  reqs : List (Nat × Nat)
  windows : List (Nat × Nat)
  inlineError : Bool
  toastShown : Bool
  deriving DecidableEq, Repr

/-- Scheduled transitions: an explicit reload (`loadSpaces`, atomic: its
request and response), a debounced near-bottom scroll event (which calls
`loadMoreSpaces`; the handler and the method both guard on
`isLoading`/`hasMore`), and the completion of the pending
`loadMoreSpaces` request. -/
inductive PCmd where
  | reload (resp : Option PageResp)
  | scroll
  | moreResp (resp : Option PageResp)
  deriving Repr

/-- `Dashboard.loadSpaces`: reset offset, `hasMore` and the collection,
request page `(0, pageSize)`; on success store the page, hard-set
`currentOffset = pageSize` and take the server's `hasMore`; on failure
write the inline error div.  (`loadSpaces` neither reads nor writes
`isLoading`.) -/
def loadSpaces (s : PageState) (resp : Option PageResp) : PageState :=
  let s₁ := { s with currentOffset := 0, hasMore := true, allSpaces := [],
                     inlineError := false,
                     reqs := s.reqs ++ [(0, pageSize)] }
  match resp with
  | some (data, hm) =>
    { s₁ with allSpaces := data, currentOffset := pageSize, hasMore := hm,
              windows := s₁.windows ++ [(0, data.length)] }
  | none => { s₁ with inlineError := true }

/-- The scroll trigger together with the synchronous prefix of
`loadMoreSpaces`: both no-op while a page fetch is in flight or when
`hasMore` is false; otherwise set `isLoading` and issue the request at
`currentOffset`. -/
def scrollTrigger (s : PageState) : PageState :=
  if s.isLoading || !s.hasMore then s
  else
    { s with isLoading := true, pending := some s.currentOffset,
             reqs := s.reqs ++ [(s.currentOffset, pageSize)] }

/-- The completion handler of `loadMoreSpaces`: a non-empty page is
appended, `currentOffset += data.length`, `hasMore` is taken from the
server; an empty page sets `hasMore = false`; a failure shows the toast;
`finally` clears `isLoading`. -/
def loadMoreResp (s : PageState) (resp : Option PageResp) : PageState :=
  match s.pending with
  | none => s
  | some o =>
    let s₁ :=
      match resp with
      | some (data, hm) =>
        if data.isEmpty then { s with hasMore := false }
        else
          { s with allSpaces := s.allSpaces ++ data,
                   currentOffset := s.currentOffset + data.length,
                   hasMore := hm,
                   windows := s.windows ++ [(o, data.length)] }
      | none => { s with toastShown := true }
    { s₁ with isLoading := false, pending := none }

/-- One atomic pagination step. -/
def pStep (s : PageState) : PCmd → PageState
  | PCmd.reload resp => loadSpaces s resp
  | PCmd.scroll => scrollTrigger s
  | PCmd.moreResp resp => loadMoreResp s resp

/-- Run a schedule of pagination steps. -/
def pRun (s : PageState) : List PCmd → PageState
  | [] => s
  | c :: cs => pRun (pStep s c) cs

/-- A fresh `Dashboard`'s pagination fields. -/
def initPage : PageState :=
  { currentOffset := 0, isLoading := false, hasMore := true, allSpaces := [],
    pending := none, reqs := [], windows := [], inlineError := false,
    toastShown := false }

/-- Consecutive consumed windows never overlap: each window starts at or
after the running lower bound and pushes the bound to its own end. -/
def Chained : Nat → List (Nat × Nat) → Prop
  | _, [] => True
  | lo, w :: ws => lo ≤ w.1 ∧ Chained (w.1 + w.2) ws

/-- End of the last window (the running bound after consuming them all). -/
def wEnd : Nat → List (Nat × Nat) → Nat
  | lo, [] => lo
  | _, w :: ws => wEnd (w.1 + w.2) ws

/-- One listing session: an explicit reload answered by `p0`, then for each
further page a near-bottom scroll and the answer to the request it issues. -/
def sessionTrace (p0 : PageResp) (ps : List PageResp) : List PCmd :=
  PCmd.reload (some p0) :: (ps.map fun p => [PCmd.scroll, PCmd.moreResp (some p)]).flatten

/-- Invariant of a successful listing session between steps: no request in
flight, consumed windows are chained from zero and stay below the next
offset while more pages remain, and issued request offsets strictly
increase, all prior ones lying below the next offset. -/
def SessionInv (s : PageState) : Prop :=
  s.pending = none ∧ s.isLoading = false ∧
  Chained 0 s.windows ∧
  (s.hasMore = true → wEnd 0 s.windows ≤ s.currentOffset) ∧
  List.Pairwise (fun q q' : Nat × Nat => q.1 < q'.1) s.reqs ∧
  (s.hasMore = true → ∀ q ∈ s.reqs, q.1 < s.currentOffset)

/-!
Display sorting: `Dashboard.sortSpaces` calls `Array.prototype.sort` with
a comparator putting live spaces first and otherwise comparing the
resolved timestamps in descending order.  With a consistent comparator,
JS `sort` returns a permutation of the array that is sorted with respect
to it; the embedding realises that contract with `List.mergeSort` on
"comparator ≤ 0".
-/

/-- `Dashboard.getRelevantDate`: the first truthy of `lastUpdated`,
`endedAt`, `startedAt`, `createdAt`, defaulting to the epoch
(`new Date(0)`). -/
def getRelevantDate (sp : Space) : Int :=
  ((((sp.lastUpdated).or sp.endedAt).or sp.startedAt).or sp.createdAt).getD 0

/-- The comparator passed to `sort` in `Dashboard.sortSpaces`. -/
def sortComparator (a b : Space) : Int :=
  if a.isLive && !b.isLive then -1
  else if !a.isLive && b.isLive then 1
  else getRelevantDate b - getRelevantDate a

/-- `Dashboard.sortSpaces`. -/
def sortSpaces (l : List Space) : List Space :=
  l.mergeSort fun a b => sortComparator a b ≤ 0

/-!
`ApiService.getSpaceParticipants(spaceId)` in isolation (the cache
discipline of claim C10): consult the cache first, and on a miss let the
network outcome decide what, if anything, is written back.
-/

/-- Result and side effects of one `getSpaceParticipants` call: the value
or error, the cache afterwards, and whether a network request was made. -/
structure GspOutcome where
  result : Except String Roster
  cache : Cache
  requested : Bool
  deriving Repr

/-- `ApiService.getSpaceParticipants`: a truthy cache entry returns at once
with no request; otherwise the request is made and a fulfilled response is
cached and returned, while a rejection is re-thrown after caching the
explicit `null` exactly when its message contains `'404'`. -/
def getSpaceParticipants (c : Cache) (id : SpaceId) (net : FetchOutcome) : GspOutcome :=
  match c.lookup id with
  | some (some r) => { result := Except.ok r, cache := c, requested := false }
  | _ =>
    match net with
    | FetchOutcome.success r =>
      { result := Except.ok r, cache := (id, some r) :: c, requested := true }
    | FetchOutcome.failure m =>
      { result := Except.error m,
        cache := if includes404 m then (id, (none : Option Roster)) :: c else c,
        requested := true }

/-!
Observations on loader states, and the concrete inputs used by the
evaluation theorems below.
-/

/-- Recogniser for a callback event of the task with ghost serial `tid`. -/
def cbFor (tid : Nat) : Event → Bool
  | Event.callbackRun t _ => decide (t = tid)
  | _ => false

/-- Number of `onLoaded` callback invocations belonging to the task with
ghost serial `tid`. -/
def callbackCount (s : LoaderState) (tid : Nat) : Nat :=
  (s.log.filter (cbFor tid)).length

/-- Network requests issued for the given space id. -/
def fetchesFor (s : LoaderState) (id : SpaceId) : Nat :=
  (s.log.filter fun e =>
    match e with
    | Event.fetchIssued _ j => decide (j = id)
    | _ => false).length

/-- Callback invocations carrying the given space id. -/
def callbacksFor (s : LoaderState) (id : SpaceId) : Nat :=
  (s.log.filter fun e =>
    match e with
    | Event.callbackRun _ j => decide (j = id)
    | _ => false).length

/-- Outstanding network fetches held by one drain invocation. -/
def outstandingOf : DrainPC → Nat
  | DrainPC.awaitingBatch ts _ => ts.length
  | _ => 0

/-- The in-flight tasks of one drain invocation. -/
def fetchingOf : DrainPC → List LoadTask
  | DrainPC.awaitingBatch ts _ => ts
  | _ => []

/-- The abort generation captured by one drain invocation's batch. -/
def genOf : DrainPC → Option Nat
  | DrainPC.awaitingBatch _ g => g
  | _ => none

/-- Total outstanding participant fetches. -/
def outstandingTotal (s : LoaderState) : Nat :=
  (s.drains.map outstandingOf).sum

/-- Drain-loop invocations that have not returned. -/
def activeDrains (s : LoaderState) : Nat :=
  (s.drains.filter fun d => decide (d ≠ DrainPC.done)).length

/-- Membership of a task in the batch a drain invocation is awaiting. -/
def inBatch (t : LoadTask) : DrainPC → Bool
  | DrainPC.awaitingBatch ts _ => ts.contains t
  | _ => false

/-- A task of the loader that is pending: still queued, or spliced into a
batch a drain invocation is awaiting. -/
def taskPending (s : LoaderState) (t : LoadTask) : Prop :=
  t ∈ s.queue ∨ ∃ d ∈ s.drains, inBatch t d = true

instance (s : LoaderState) (t : LoadTask) : Decidable (taskPending s t) := by
  unfold taskPending
  infer_instance

/-- The loader never runs a callback for the task `tid` again: no copy of
it is queued, and every batch holding it captured an already-aborted
signal, so its fetch can only settle as `'Request cancelled'`. -/
def Suppressed (s : LoaderState) (tid : Nat) : Prop :=
  (∀ t ∈ s.queue, t.taskId ≠ tid) ∧
  (∀ ts g, DrainPC.awaitingBatch ts g ∈ s.drains →
    ∀ t ∈ ts, t.taskId = tid → genAborted s g = true) ∧
  tid < s.nextTask

/-- Structural facts every reachable loader state satisfies: a non-empty
queue has a live controller, every awaited batch captured a concrete
generation that is either already aborted or still the current controller,
and all task serials are below the fresh-serial counter. -/
def WFLoader (s : LoaderState) : Prop :=
  (s.queue ≠ [] → ∃ g, s.controller = some g) ∧
  (∀ ts g, DrainPC.awaitingBatch ts g ∈ s.drains →
    ∃ n, g = some n ∧ (n ∈ s.aborted ∨ s.controller = some n)) ∧
  (∀ t ∈ s.queue, t.taskId < s.nextTask) ∧
  (∀ d ∈ s.drains, ∀ t ∈ fetchingOf d, t.taskId < s.nextTask)

/-- An ended space with no timestamps, as used by the concrete runs. -/
def mkSpace (id : String) : Space :=
  { _id := id, title := id, isLive := false, lastUpdated := none,
    endedAt := none, startedAt := none, createdAt := none }

/-- A one-participant roster for the concrete runs. -/
def roster1 : Roster := { totalParticipants := 1 }

/-- Six uncached spaces enqueued by a first page, then one more space
enqueued by a second page while the first six are queued or in flight,
then both suspended batches settle with fulfilled fetches. -/
def c1Trace : List Cmd :=
  [Cmd.enqueue [mkSpace "a1", mkSpace "a2", mkSpace "a3", mkSpace "a4",
                mkSpace "a5", mkSpace "a6"],
   Cmd.enqueue [mkSpace "b1"],
   Cmd.settle 0 (List.replicate 5 (FetchOutcome.success roster1)),
   Cmd.settle 1 [FetchOutcome.success roster1]]

/-- A space whose only fetch rejects with a non-404 transport failure. -/
def c2LoaderTrace : List Cmd :=
  [Cmd.enqueue [mkSpace "x"],
   Cmd.settle 0 [FetchOutcome.failure "network error"]]

/-- Monitor schedule in which every fetch of space `"x"` fails with a
non-404 failure: three interval firings each followed by the rejection. -/
def c2MonitorTrace : List DCmd :=
  [DCmd.tick, DCmd.complete "x" (FetchOutcome.failure "network error"),
   DCmd.tick, DCmd.complete "x" (FetchOutcome.failure "network error"),
   DCmd.tick, DCmd.complete "x" (FetchOutcome.failure "network error")]

/-- A space answering 404, then re-enqueued. -/
def c3Trace : List Cmd :=
  [Cmd.enqueue [mkSpace "x"],
   Cmd.settle 0 [FetchOutcome.failure "HTTP 404: Not Found"],
   Cmd.enqueue [mkSpace "x"]]

/-- Twelve spaces of a first page. -/
def dozenA : List Space := (List.range 12).map fun i => mkSpace ("a" ++ toString i)

/-- Twelve spaces of a replacement page. -/
def dozenB : List Space := (List.range 12).map fun i => mkSpace ("b" ++ toString i)

/-- Enqueue twelve spaces; first batch settles and the drain sleeps in its
inter-batch pause; the listing cancels and enqueues twelve new spaces,
starting a second drain; the first drain's timer then fires. -/
def c4Trace : List Cmd :=
  [Cmd.enqueue dozenA,
   Cmd.settle 0 (List.replicate 5 (FetchOutcome.success roster1)),
   Cmd.cancel,
   Cmd.enqueue dozenB,
   Cmd.wake 0]

/-- Seven spaces of a first page. -/
def sevenA : List Space := (List.range 7).map fun i => mkSpace ("a" ++ toString i)

/-- Six spaces of a replacement page. -/
def sixB : List Space := (List.range 6).map fun i => mkSpace ("b" ++ toString i)

/-- Same cancel-and-re-enqueue interleaving as `c4Trace` on smaller pages:
the woken first drain splices the second enqueue's leftover task while the
second drain still holds its batch of five. -/
def c5Trace : List Cmd :=
  [Cmd.enqueue sevenA,
   Cmd.settle 0 (List.replicate 5 (FetchOutcome.success roster1)),
   Cmd.cancel,
   Cmd.enqueue sixB,
   Cmd.wake 0]

/-- A full first page for the pagination runs. -/
def page20 : List Space := (List.range 20).map fun i => mkSpace ("s" ++ toString i)

/-- Successful first page, then a scroll whose page request fails, then a
further scroll. -/
def c8MoreTrace : List PCmd :=
  [PCmd.reload (some (page20, true)), PCmd.scroll, PCmd.moreResp none, PCmd.scroll]

/-- Failing first page, then a scroll. -/
def c8FirstTrace : List PCmd :=
  [PCmd.reload none, PCmd.scroll]

/-- A live space carrying only a `lastUpdated` timestamp. -/
def liveSpace (id : String) (d : Int) : Space :=
  { _id := id, title := id, isLive := true, lastUpdated := some d,
    endedAt := none, startedAt := none, createdAt := none }

/-- An ended space carrying only a `lastUpdated` timestamp. -/
def endedSpace (id : String) (d : Int) : Space :=
  { _id := id, title := id, isLive := false, lastUpdated := some d,
    endedAt := none, startedAt := none, createdAt := none }

/-- A mixed list of live and ended spaces for the sort evaluation. -/
def c9List : List Space :=
  [endedSpace "e1" 10, liveSpace "l1" 1, endedSpace "e2" 50, liveSpace "l2" 7]

/-- Six spaces enqueued by a first page; the task for `"a6"` stays queued
behind the first batch. -/
def c6Pre : List Cmd :=
  [Cmd.enqueue [mkSpace "a1", mkSpace "a2", mkSpace "a3", mkSpace "a4",
                mkSpace "a5", mkSpace "a6"]]

/-- After the cancel: a replacement page is enqueued and every suspended
batch settles, with the network answering success everywhere. -/
def c6Post : List Cmd :=
  [Cmd.enqueue [mkSpace "b1"],
   Cmd.settle 1 [FetchOutcome.success roster1],
   Cmd.settle 0 (List.replicate 5 (FetchOutcome.success roster1))]

end DashboardSpec

/-!
Lemmas: first the comparator and session lemmas of the pagination and sort
models, then the frame, counting and well-formedness lemmas of the loader's
step semantics, leading to the suppression and bounded-batch invariants.
-/

namespace DashboardSpec

end DashboardSpec

namespace DashboardSpec

theorem sortComparator_le_iff (a b : Space) :
    sortComparator a b ≤ 0 ↔
      ((b.isLive → a.isLive) ∧
       (a.isLive = b.isLive → getRelevantDate b ≤ getRelevantDate a)) := by
  unfold sortComparator
  cases ha : a.isLive <;> cases hb : b.isLive <;> simp <;> omega

theorem sortLe_trans (a b c : Space) :
    decide (sortComparator a b ≤ 0) → decide (sortComparator b c ≤ 0) →
    decide (sortComparator a c ≤ 0) := by
  simp only [decide_eq_true_eq, sortComparator_le_iff]
  rintro ⟨h1, h1d⟩ ⟨h2, h2d⟩
  refine ⟨fun hc => h1 (h2 hc), fun hac => ?_⟩
  cases hA : a.isLive <;> cases hB : b.isLive <;> cases hC : c.isLive <;>
    simp_all <;> omega

theorem sortLe_total (a b : Space) :
    decide (sortComparator a b ≤ 0) || decide (sortComparator b a ≤ 0) := by
  simp only [Bool.or_eq_true, decide_eq_true_eq]
  unfold sortComparator
  cases a.isLive <;> cases b.isLive <;> simp <;> omega

end DashboardSpec

namespace DashboardSpec

theorem dRun_append (s : DashState) (l1 l2 : List DCmd) :
    dRun s (l1 ++ l2) = dRun (dRun s l1) l2 := by
  induction l1 generalizing s with
  | nil => rfl
  | cons c cs ih => simp [dRun, ih]

theorem dRun_replicate_tick (s : DashState) (h : dStep s DCmd.tick = s) (k : Nat) :
    dRun s (List.replicate k DCmd.tick) = s := by
  induction k with
  | zero => rfl
  | succ n ih => simpa [List.replicate_succ, dRun, h] using ih

end DashboardSpec

namespace DashboardSpec

theorem pRun_append (s : PageState) (l1 l2 : List PCmd) :
    pRun s (l1 ++ l2) = pRun (pRun s l1) l2 := by
  induction l1 generalizing s with
  | nil => rfl
  | cons c cs ih => simp [pRun, ih]

theorem chained_append (o l : Nat) :
    ∀ (ws : List (Nat × Nat)) (lo : Nat), Chained lo ws → wEnd lo ws ≤ o →
    Chained lo (ws ++ [(o, l)]) ∧ wEnd lo (ws ++ [(o, l)]) = o + l := by
  intro ws
  induction ws with
  | nil => intro lo _ h2; exact ⟨⟨h2, trivial⟩, rfl⟩
  | cons w ws ih =>
    intro lo h1 h2
    obtain ⟨hlo, hc⟩ := h1
    obtain ⟨ha, hb⟩ := ih (w.1 + w.2) hc h2
    exact ⟨⟨hlo, ha⟩, hb⟩

theorem scrollTrigger_go (s : PageState) (h1 : s.isLoading = false) (h2 : s.hasMore = true) :
    scrollTrigger s =
      { s with isLoading := true, pending := some s.currentOffset,
               reqs := s.reqs ++ [(s.currentOffset, pageSize)] } := by
  unfold scrollTrigger
  simp [h1, h2]

theorem session_step (s : PageState) (data : List Space) (hmore : Bool)
    (hinv : SessionInv s) (hlen : data.length ≤ pageSize) :
    SessionInv (pRun s [PCmd.scroll, PCmd.moreResp (some (data, hmore))]) := by
  obtain ⟨hpend, hload, hch, hwe, hpw, hlt⟩ := hinv
  by_cases hm : s.hasMore = true
  · have hrun : pRun s [PCmd.scroll, PCmd.moreResp (some (data, hmore))] =
        loadMoreResp { s with isLoading := true, pending := some s.currentOffset,
                              reqs := s.reqs ++ [(s.currentOffset, pageSize)] }
          (some (data, hmore)) := by
      simp only [pRun, pStep, scrollTrigger_go s hload hm]
    rw [hrun]
    unfold loadMoreResp
    simp only
    by_cases hd : data.isEmpty
    · rw [if_pos hd]
      refine ⟨rfl, rfl, hch, by simp, ?_, by simp⟩
      rw [List.pairwise_append]
      refine ⟨hpw, List.pairwise_singleton _ _, ?_⟩
      intro a ha b hb
      rw [List.mem_singleton] at hb
      subst hb
      exact hlt hm a ha
    · rw [if_neg hd]
      have hlen0 : 0 < data.length := by
        cases data with
        | nil => simp at hd
        | cons a as => simp
      obtain ⟨hca, hwa⟩ := chained_append s.currentOffset data.length s.windows 0 hch (hwe hm)
      refine ⟨rfl, rfl, hca, ?_, ?_, ?_⟩
      · intro _
        simp only
        omega
      · simp only
        rw [List.pairwise_append]
        refine ⟨hpw, List.pairwise_singleton _ _, ?_⟩
        intro a ha b hb
        rw [List.mem_singleton] at hb
        subst hb
        exact hlt hm a ha
      · intro _ q hq
        simp only at hq ⊢
        rcases List.mem_append.mp hq with h | h
        · have := hlt hm q h
          omega
        · rw [List.mem_singleton] at h
          subst h
          simp
          omega
  · have hm' : s.hasMore = false := by simpa using hm
    have h1 : pStep s PCmd.scroll = s := by
      simp only [pStep]
      unfold scrollTrigger
      simp [hm']
    have h2 : pStep s (PCmd.moreResp (some (data, hmore))) = s := by
      simp only [pStep]
      unfold loadMoreResp
      simp [hpend]
    simp only [pRun, h1, h2]
    exact ⟨hpend, hload, hch, hwe, hpw, hlt⟩

theorem session_run (ps : List PageResp) (s : PageState)
    (hinv : SessionInv s) (hlen : ∀ p ∈ ps, p.1.length ≤ pageSize) :
    SessionInv (pRun s ((ps.map fun p => [PCmd.scroll, PCmd.moreResp (some p)]).flatten)) := by
  induction ps generalizing s with
  | nil => exact hinv
  | cons p ps ih =>
    simp only [List.map_cons, List.flatten_cons]
    rw [pRun_append]
    exact ih _ (session_step s p.1 p.2 hinv (hlen p (List.mem_cons_self p ps)))
      fun q hq => hlen q (List.mem_cons_of_mem p hq)

theorem session_init (data : List Space) (hmore : Bool) (hlen : data.length ≤ pageSize) :
    SessionInv (pStep initPage (PCmd.reload (some (data, hmore)))) := by
  simp only [pStep]
  unfold loadSpaces initPage
  simp only
  refine ⟨rfl, rfl, ⟨Nat.le_refl 0, trivial⟩, ?_, ?_, ?_⟩
  · intro _
    show wEnd (0 + data.length) [] ≤ pageSize
    simpa using hlen
  · simpa using List.pairwise_singleton _ _
  · intro _ q hq
    simp at hq
    subst hq
    simp [pageSize]

end DashboardSpec

namespace DashboardSpec

theorem genAborted_congr (s s' : LoaderState) (g : Option Nat)
    (h : s'.aborted = s.aborted) : genAborted s' g = genAborted s g := by
  cases g <;> simp [genAborted, h]

theorem genAborted_mono (s s' : LoaderState) (g : Option Nat)
    (h : ∀ x ∈ s.aborted, x ∈ s'.aborted) (hg : genAborted s g = true) :
    genAborted s' g = true := by
  cases g with
  | none => simp [genAborted] at hg
  | some n =>
    simp only [genAborted, List.elem_iff] at hg ⊢
    exact h n hg

theorem settleTask_frame (s : LoaderState) (t : LoadTask) (o : FetchOutcome) :
    (settleTask s t o).queue = s.queue ∧ (settleTask s t o).drains = s.drains ∧
    (settleTask s t o).aborted = s.aborted ∧
    (settleTask s t o).controller = s.controller ∧
    (settleTask s t o).nextTask = s.nextTask := by
  cases o with
  | success r => exact ⟨rfl, rfl, rfl, rfl, rfl⟩
  | failure m =>
    unfold settleTask
    by_cases h : includes404 m <;> simp [h]

theorem settleTask_cb_ne (s : LoaderState) (t : LoadTask) (o : FetchOutcome) (tid : Nat)
    (h : t.taskId ≠ tid) :
    callbackCount (settleTask s t o) tid = callbackCount s tid := by
  cases o with
  | success r =>
    unfold settleTask callbackCount
    simp [List.filter_append, cbFor, h]
  | failure m =>
    unfold settleTask callbackCount
    by_cases h : includes404 m <;> simp [h]

theorem settleTask_cb_failure (s : LoaderState) (t : LoadTask) (m : String) (tid : Nat) :
    callbackCount (settleTask s t (FetchOutcome.failure m)) tid = callbackCount s tid := by
  unfold settleTask callbackCount
  by_cases h : includes404 m <;> simp [h]

theorem settleBatchTasks_frame (gen : Option Nat) :
    ∀ (ts : List LoadTask) (outs : List FetchOutcome) (s : LoaderState),
    (settleBatchTasks s gen ts outs).queue = s.queue ∧
    (settleBatchTasks s gen ts outs).drains = s.drains ∧
    (settleBatchTasks s gen ts outs).aborted = s.aborted ∧
    (settleBatchTasks s gen ts outs).controller = s.controller ∧
    (settleBatchTasks s gen ts outs).nextTask = s.nextTask := by
  intro ts
  induction ts with
  | nil => intro outs s; exact ⟨rfl, rfl, rfl, rfl, rfl⟩
  | cons t ts ih =>
    intro outs s
    cases outs with
    | nil =>
      obtain ⟨h1, h2, h3, h4, h5⟩ := ih [] (settleTask s t
        (effOutcome s gen (FetchOutcome.failure "network error")))
      obtain ⟨g1, g2, g3, g4, g5⟩ := settleTask_frame s t
        (effOutcome s gen (FetchOutcome.failure "network error"))
      exact ⟨h1.trans g1, h2.trans g2, h3.trans g3, h4.trans g4, h5.trans g5⟩
    | cons o os =>
      obtain ⟨h1, h2, h3, h4, h5⟩ := ih os (settleTask s t (effOutcome s gen o))
      obtain ⟨g1, g2, g3, g4, g5⟩ := settleTask_frame s t (effOutcome s gen o)
      exact ⟨h1.trans g1, h2.trans g2, h3.trans g3, h4.trans g4, h5.trans g5⟩

theorem settleBatchTasks_cb (gen : Option Nat) (tid : Nat) :
    ∀ (ts : List LoadTask) (outs : List FetchOutcome) (s : LoaderState),
    (∀ t ∈ ts, t.taskId = tid → genAborted s gen = true) →
    callbackCount (settleBatchTasks s gen ts outs) tid = callbackCount s tid := by
  intro ts
  induction ts with
  | nil => intro outs s _; rfl
  | cons t ts ih =>
    intro outs s h
    have hstep : ∀ o : FetchOutcome,
        callbackCount (settleTask s t (effOutcome s gen o)) tid = callbackCount s tid := by
      intro o
      by_cases ht : t.taskId = tid
      · have hab : genAborted s gen = true := h t (List.mem_cons_self t ts) ht
        unfold effOutcome
        rw [hab, if_pos rfl]
        exact settleTask_cb_failure s t "Request cancelled" tid
      · exact settleTask_cb_ne s t _ tid ht
    have hnext : ∀ o : FetchOutcome,
        ∀ t' ∈ ts, t'.taskId = tid →
          genAborted (settleTask s t (effOutcome s gen o)) gen = true := by
      intro o t' ht' htid
      have := (settleTask_frame s t (effOutcome s gen o)).2.2.1
      rw [genAborted_congr _ _ gen this]
      exact h t' (List.mem_cons_of_mem t ht') htid
    cases outs with
    | nil =>
      unfold settleBatchTasks
      rw [ih [] _ (hnext _), hstep _]
    | cons o os =>
      unfold settleBatchTasks
      rw [ih os _ (hnext o), hstep o]

theorem resumeAfterSettle_frame (s : LoaderState) :
    (resumeAfterSettle s).1.queue = s.queue ∧
    (resumeAfterSettle s).1.drains = s.drains ∧
    (resumeAfterSettle s).1.aborted = s.aborted ∧
    (resumeAfterSettle s).1.controller = s.controller ∧
    (resumeAfterSettle s).1.nextTask = s.nextTask ∧
    (∀ ts g, (resumeAfterSettle s).2 ≠ DrainPC.awaitingBatch ts g) := by
  unfold resumeAfterSettle
  split <;> exact ⟨rfl, rfl, rfl, rfl, rfl, fun ts g h => by cases h⟩

theorem resumeAfterSettle_cb (s : LoaderState) (tid : Nat) :
    callbackCount (resumeAfterSettle s).1 tid = callbackCount s tid := by
  unfold resumeAfterSettle callbackCount
  split
  · rfl
  · simp [List.filter_append, cbFor]

theorem issueBatch_frame (tid : Nat) :
    ∀ (b : List LoadTask) (s : LoaderState),
    (issueBatch s b).1.queue = s.queue ∧
    (issueBatch s b).1.drains = s.drains ∧
    (issueBatch s b).1.aborted = s.aborted ∧
    (issueBatch s b).1.controller = s.controller ∧
    (issueBatch s b).1.nextTask = s.nextTask ∧
    ((∀ t ∈ b, t.taskId ≠ tid) →
      callbackCount (issueBatch s b).1 tid = callbackCount s tid) := by
  intro b
  induction b with
  | nil => intro s; exact ⟨rfl, rfl, rfl, rfl, rfl, fun _ => rfl⟩
  | cons t ts ih =>
    intro s
    unfold issueBatch
    by_cases hc : cacheTruthy s.cache t.spaceId
    · rw [if_pos hc]
      obtain ⟨h1, h2, h3, h4, h5, h6⟩ := ih
        { s with log := s.log ++ [Event.callbackRun t.taskId t.spaceId] }
      refine ⟨h1, h2, h3, h4, h5, fun hall => ?_⟩
      rw [h6 fun t' ht' => hall t' (List.mem_cons_of_mem t ht')]
      unfold callbackCount
      simp [List.filter_append, cbFor, hall t (List.mem_cons_self t ts)]
    · rw [if_neg hc]
      obtain ⟨h1, h2, h3, h4, h5, h6⟩ := ih
        { s with log := s.log ++ [Event.fetchIssued t.taskId t.spaceId] }
      refine ⟨h1, h2, h3, h4, h5, fun hall => ?_⟩
      rw [h6 fun t' ht' => hall t' (List.mem_cons_of_mem t ht')]
      unfold callbackCount
      simp [List.filter_append, cbFor]

theorem issueBatch_sublist (b : List LoadTask) :
    ∀ s : LoaderState, (issueBatch s b).2.Sublist b := by
  induction b with
  | nil => intro s; simp [issueBatch]
  | cons t ts ih =>
    intro s
    unfold issueBatch
    by_cases h : cacheTruthy s.cache t.spaceId
    · simp only [h, if_true]
      exact (ih _).cons t
    · simp only [h, if_false]
      exact (ih _).cons₂ t

theorem drainRun_facts (s : LoaderState) (tid : Nat) :
    (drainRun s).1.drains = s.drains ∧
    (drainRun s).1.aborted = s.aborted ∧
    (drainRun s).1.controller = s.controller ∧
    (drainRun s).1.nextTask = s.nextTask ∧
    (∀ t ∈ (drainRun s).1.queue, t ∈ s.queue) ∧
    (∀ t ∈ fetchingOf (drainRun s).2, t ∈ s.queue) ∧
    (∀ ts g, (drainRun s).2 = DrainPC.awaitingBatch ts g →
      g = s.controller ∧ s.queue ≠ []) ∧
    ((∀ t ∈ s.queue, t.taskId ≠ tid) →
      callbackCount (drainRun s).1 tid = callbackCount s tid) := by
  unfold drainRun
  by_cases hq : s.queue.isEmpty
  · rw [if_pos hq]
    refine ⟨rfl, rfl, rfl, rfl, fun t ht => ht, by simp [fetchingOf], ?_, fun _ => rfl⟩
    intro ts g h
    cases h
  · rw [if_neg hq]
    by_cases hab : controllerAborted s
    · rw [if_pos hab]
      refine ⟨rfl, rfl, rfl, rfl, fun t ht => ht, by simp [fetchingOf], ?_, fun _ => rfl⟩
      intro ts g h
      cases h
    · rw [if_neg hab]
      dsimp only
      obtain ⟨h1, h2, h3, h4, h5, h6⟩ := issueBatch_frame tid (s.queue.take 5)
        { s with queue := s.queue.drop 5 }
      have hsub := issueBatch_sublist (s.queue.take 5) { s with queue := s.queue.drop 5 }
      refine ⟨h2, h3, h4, h5, ?_, ?_, ?_, ?_⟩
      · intro t ht
        rw [h1] at ht
        exact List.mem_of_mem_drop ht
      · intro t ht
        simp only [fetchingOf] at ht
        exact List.mem_of_mem_take (hsub.subset ht)
      · intro ts g h
        cases h
        constructor
        · rfl
        · intro hnil
          rw [hnil] at hq
          simp at hq
      · intro hall
        rw [h6 fun t ht => hall t (List.mem_of_mem_take ht)]
        rfl

end DashboardSpec

namespace DashboardSpec

theorem cancel_facts (s : LoaderState) (tid : Nat) :
    (cancelParticipantLoading s).queue = [] ∧
    (cancelParticipantLoading s).drains = s.drains ∧
    (cancelParticipantLoading s).nextTask = s.nextTask ∧
    (∀ x ∈ s.aborted, x ∈ (cancelParticipantLoading s).aborted) ∧
    (∀ g, s.controller = some g → g ∈ (cancelParticipantLoading s).aborted) ∧
    callbackCount (cancelParticipantLoading s) tid = callbackCount s tid := by
  unfold cancelParticipantLoading
  rcases hc : s.controller with _ | g
  · refine ⟨rfl, rfl, rfl, fun x hx => hx, fun g hg => ?_, ?_⟩
    · exact Option.noConfusion hg
    · unfold callbackCount
      simp [List.filter_append, cbFor]
  · refine ⟨rfl, rfl, rfl, fun x hx => List.mem_cons_of_mem g hx, fun g' hg => ?_, ?_⟩
    · obtain rfl : g = g' := Option.some.inj hg
      exact List.mem_cons_self g _
    · unfold callbackCount
      simp [List.filter_append, cbFor]

theorem assignTasks_ids :
    ∀ (l : List Space) (n : Nat) (t : LoadTask), t ∈ assignTasks n l →
      n ≤ t.taskId ∧ t.taskId < n + l.length := by
  intro l
  induction l with
  | nil => intro n t ht; cases ht
  | cons sp sps ih =>
    intro n t ht
    rcases List.mem_cons.mp ht with h | h
    · subst h
      simp
    · obtain ⟨h1, h2⟩ := ih (n + 1) t h
      refine ⟨by omega, ?_⟩
      simp only [List.length_cons]
      omega

theorem assignTasks_isEmpty (l : List Space) (n : Nat) :
    (assignTasks n l).isEmpty = l.isEmpty := by
  cases l <;> rfl

theorem enqueue_shape (s : LoaderState) (sps : List Space) :
    startBackgroundParticipantLoading s sps = s ∨
    startBackgroundParticipantLoading s sps = cancelParticipantLoading s ∨
    ∃ toLoad : List Space, toLoad ≠ [] ∧
      startBackgroundParticipantLoading s sps =
        { (drainRun (enqueueReady s toLoad)).1 with
            drains := (drainRun (enqueueReady s toLoad)).1.drains ++
              [(drainRun (enqueueReady s toLoad)).2] } := by
  unfold startBackgroundParticipantLoading
  by_cases he : sps.isEmpty
  · rw [if_pos he]
    exact Or.inl rfl
  · rw [if_neg he]
    dsimp only
    by_cases ht : (sps.filter fun sp =>
        !cacheTruthy (cancelParticipantLoading s).cache sp._id && decide (sp._id ≠ "")).isEmpty
    · rw [if_pos ht]
      exact Or.inr (Or.inl rfl)
    · rw [if_neg ht]
      refine Or.inr (Or.inr ⟨sps.filter fun sp =>
        !cacheTruthy (cancelParticipantLoading s).cache sp._id && decide (sp._id ≠ ""),
        fun hnil => ht (by rw [hnil]; rfl), ?_⟩)
      split
      · next h => exact absurd h (by intro h'; cases h')
      · split
        · next h =>
          rw [assignTasks_isEmpty] at h
          exact absurd h (by simpa using ht)
        · rfl

end DashboardSpec

namespace DashboardSpec

theorem suppressed_cancel (s : LoaderState) (tid : Nat) (h : Suppressed s tid) :
    Suppressed (cancelParticipantLoading s) tid := by
  obtain ⟨hq, hb, hn⟩ := h
  obtain ⟨cq, cd, cn, cmono, cctrl, ccb⟩ := cancel_facts s tid
  refine ⟨?_, ?_, ?_⟩
  · rw [cq]
    intro t ht
    cases ht
  · intro ts g hmem t htt htid
    rw [cd] at hmem
    exact genAborted_mono s _ g cmono (hb ts g hmem t htt htid)
  · rw [cn]
    exact hn

theorem wf_cancel (s : LoaderState) (h : WFLoader s) :
    WFLoader (cancelParticipantLoading s) := by
  obtain ⟨w1, w2, w3, w4⟩ := h
  obtain ⟨cq, cd, cn, cmono, cctrl, ccb⟩ := cancel_facts s 0
  refine ⟨?_, ?_, ?_, ?_⟩
  · intro hne
    rw [cq] at hne
    exact absurd rfl hne
  · intro ts g hmem
    rw [cd] at hmem
    obtain ⟨n, hg, disj⟩ := w2 ts g hmem
    refine ⟨n, hg, Or.inl ?_⟩
    rcases disj with hab | hctrl
    · exact cmono n hab
    · exact cctrl n hctrl
  · intro t ht
    rw [cq] at ht
    cases ht
  · intro d hd t ht
    rw [cd] at hd
    rw [cn]
    exact w4 d hd t ht

theorem enqueueReady_facts (s : LoaderState) (toLoad : List Space) :
    (enqueueReady s toLoad).queue =
      assignTasks (cancelParticipantLoading s).nextTask toLoad ∧
    (enqueueReady s toLoad).controller = some (cancelParticipantLoading s).nextGen ∧
    (enqueueReady s toLoad).drains = (cancelParticipantLoading s).drains ∧
    (enqueueReady s toLoad).aborted = (cancelParticipantLoading s).aborted ∧
    (enqueueReady s toLoad).nextTask =
      (cancelParticipantLoading s).nextTask + toLoad.length ∧
    (∀ tid : Nat, callbackCount (enqueueReady s toLoad) tid =
      callbackCount (cancelParticipantLoading s) tid) :=
  ⟨rfl, rfl, rfl, rfl, rfl, fun _ => rfl⟩

theorem step_suppressed (s : LoaderState) (c : Cmd) (tid : Nat) (h : Suppressed s tid) :
    Suppressed (stepCmd s c) tid ∧
    callbackCount (stepCmd s c) tid = callbackCount s tid := by
  obtain ⟨hq, hb, hn⟩ := h
  cases c with
  | cancel =>
    exact ⟨suppressed_cancel s tid ⟨hq, hb, hn⟩, (cancel_facts s tid).2.2.2.2.2⟩
  | enqueue sps =>
    simp only [stepCmd]
    rcases enqueue_shape s sps with hs | hs | ⟨toLoad, hne, hs⟩
    · rw [hs]
      exact ⟨⟨hq, hb, hn⟩, rfl⟩
    · rw [hs]
      exact ⟨suppressed_cancel s tid ⟨hq, hb, hn⟩, (cancel_facts s tid).2.2.2.2.2⟩
    · rw [hs]
      obtain ⟨cq, cd, cn, cmono, cctrl, ccb⟩ := cancel_facts s tid
      obtain ⟨eq1, eq2, eq3, eq4, eq5, eq6⟩ := enqueueReady_facts s toLoad
      obtain ⟨d1, d2, d3, d4, d5, d6, d7, d8⟩ :=
        drainRun_facts (enqueueReady s toLoad) tid
      have hqid : ∀ t ∈ (enqueueReady s toLoad).queue, t.taskId ≠ tid := by
        intro t ht htid
        rw [eq1] at ht
        obtain ⟨hge, _⟩ := assignTasks_ids toLoad _ t ht
        rw [cn] at hge
        omega
      dsimp only
      refine ⟨⟨?_, ?_, ?_⟩, ?_⟩
      · intro t ht htid
        exact hqid t (d5 t ht) htid
      · intro ts g hmem t htt htid
        rcases List.mem_append.mp hmem with hm | hm
        · rw [d1, eq3, cd] at hm
          have base := hb ts g hm t htt htid
          refine genAborted_mono s _ g ?_ base
          intro x hx
          show x ∈ (drainRun (enqueueReady s toLoad)).1.aborted
          rw [d2, eq4]
          exact cmono x hx
        · rw [List.mem_singleton] at hm
          have htf : t ∈ fetchingOf (drainRun (enqueueReady s toLoad)).2 := by
            rw [← hm]
            exact htt
          exact absurd htid (hqid t (d6 t htf))
      · show tid < (drainRun (enqueueReady s toLoad)).1.nextTask
        rw [d4, eq5, cn]
        omega
      · show callbackCount (drainRun (enqueueReady s toLoad)).1 tid = callbackCount s tid
        rw [d8 hqid, eq6, ccb]
  | settle i outs =>
    simp only [stepCmd]
    rcases hd : s.drains.get? i with _ | d
    · exact ⟨⟨hq, hb, hn⟩, rfl⟩
    · cases d with
      | sleeping => exact ⟨⟨hq, hb, hn⟩, rfl⟩
      | done => exact ⟨⟨hq, hb, hn⟩, rfl⟩
      | awaitingBatch ts gen =>
        have hmem0 : DrainPC.awaitingBatch ts gen ∈ s.drains := List.get?_mem hd
        have habatch : ∀ t ∈ ts, t.taskId = tid → genAborted s gen = true :=
          fun t ht htid => hb ts gen hmem0 t ht htid
        obtain ⟨sf1, sf2, sf3, sf4, sf5⟩ := settleBatchTasks_frame gen ts outs s
        obtain ⟨rf1, rf2, rf3, rf4, rf5, rf6⟩ :=
          resumeAfterSettle_frame (settleBatchTasks s gen ts outs)
        dsimp only
        refine ⟨⟨?_, ?_, ?_⟩, ?_⟩
        · intro t ht htid
          rw [rf1, sf1] at ht
          exact hq t ht htid
        · intro ts' g' hmem t' htt' htid'
          rw [rf2, sf2] at hmem
          rcases List.mem_or_eq_of_mem_set hmem with hm | hm
          · have base := hb ts' g' hm t' htt' htid'
            refine genAborted_mono s _ g' ?_ base
            intro x hx
            show x ∈ (resumeAfterSettle (settleBatchTasks s gen ts outs)).1.aborted
            rw [rf3, sf3]
            exact hx
          · exact absurd hm.symm (rf6 ts' g')
        · show tid < (resumeAfterSettle (settleBatchTasks s gen ts outs)).1.nextTask
          rw [rf5, sf5]
          exact hn
        · show callbackCount (resumeAfterSettle (settleBatchTasks s gen ts outs)).1 tid =
            callbackCount s tid
          rw [resumeAfterSettle_cb, settleBatchTasks_cb gen tid ts outs s habatch]
  | wake i =>
    simp only [stepCmd]
    rcases hd : s.drains.get? i with _ | d
    · exact ⟨⟨hq, hb, hn⟩, rfl⟩
    · cases d with
      | awaitingBatch ts gen => exact ⟨⟨hq, hb, hn⟩, rfl⟩
      | done => exact ⟨⟨hq, hb, hn⟩, rfl⟩
      | sleeping =>
        obtain ⟨d1, d2, d3, d4, d5, d6, d7, d8⟩ := drainRun_facts s tid
        dsimp only
        refine ⟨⟨?_, ?_, ?_⟩, ?_⟩
        · intro t ht htid
          exact hq t (d5 t ht) htid
        · intro ts' g' hmem t' htt' htid'
          rw [d1] at hmem
          rcases List.mem_or_eq_of_mem_set hmem with hm | hm
          · have base := hb ts' g' hm t' htt' htid'
            refine genAborted_mono s _ g' ?_ base
            intro x hx
            show x ∈ (drainRun s).1.aborted
            rw [d2]
            exact hx
          · have htf : t' ∈ fetchingOf (drainRun s).2 := by
              rw [← hm]
              exact htt'
            exact absurd htid' (hq t' (d6 t' htf))
        · show tid < (drainRun s).1.nextTask
          rw [d4]
          exact hn
        · show callbackCount (drainRun s).1 tid = callbackCount s tid
          exact d8 hq

end DashboardSpec

namespace DashboardSpec

theorem stepCmd_wf (s : LoaderState) (c : Cmd) (h : WFLoader s) :
    WFLoader (stepCmd s c) := by
  obtain ⟨w1, w2, w3, w4⟩ := h
  cases c with
  | cancel => exact wf_cancel s ⟨w1, w2, w3, w4⟩
  | enqueue sps =>
    simp only [stepCmd]
    rcases enqueue_shape s sps with hs | hs | ⟨toLoad, hne, hs⟩
    · rw [hs]
      exact ⟨w1, w2, w3, w4⟩
    · rw [hs]
      exact wf_cancel s ⟨w1, w2, w3, w4⟩
    · rw [hs]
      obtain ⟨cq, cd, cn, cmono, cctrl, ccb⟩ := cancel_facts s 0
      obtain ⟨eq1, eq2, eq3, eq4, eq5, eq6⟩ := enqueueReady_facts s toLoad
      obtain ⟨d1, d2, d3, d4, d5, d6, d7, d8⟩ :=
        drainRun_facts (enqueueReady s toLoad) 0
      dsimp only
      refine ⟨?_, ?_, ?_, ?_⟩
      · intro _
        refine ⟨(cancelParticipantLoading s).nextGen, ?_⟩
        show (drainRun (enqueueReady s toLoad)).1.controller = _
        rw [d3, eq2]
      · intro ts g hmem
        rcases List.mem_append.mp hmem with hm | hm
        · rw [d1, eq3, cd] at hm
          obtain ⟨n, hg, disj⟩ := w2 ts g hm
          refine ⟨n, hg, Or.inl ?_⟩
          show n ∈ (drainRun (enqueueReady s toLoad)).1.aborted
          rw [d2, eq4]
          rcases disj with hab | hctrl
          · exact cmono n hab
          · exact cctrl n hctrl
        · rw [List.mem_singleton] at hm
          obtain ⟨hg, _⟩ := d7 ts g hm.symm
          refine ⟨(cancelParticipantLoading s).nextGen, ?_, Or.inr ?_⟩
          · rw [hg, eq2]
          · show (drainRun (enqueueReady s toLoad)).1.controller = _
            rw [d3, eq2]
      · intro t ht
        have htE := d5 t ht
        rw [eq1] at htE
        obtain ⟨_, hlt⟩ := assignTasks_ids toLoad _ t htE
        show t.taskId < (drainRun (enqueueReady s toLoad)).1.nextTask
        rw [d4, eq5]
        exact hlt
      · intro d hd t ht
        show t.taskId < (drainRun (enqueueReady s toLoad)).1.nextTask
        rw [d4, eq5]
        rcases List.mem_append.mp hd with hm | hm
        · rw [d1, eq3, cd] at hm
          have := w4 d hm t ht
          rw [cn]
          omega
        · rw [List.mem_singleton] at hm
          have htE := d6 t (by rw [hm] at ht; exact ht)
          rw [eq1] at htE
          obtain ⟨_, hlt⟩ := assignTasks_ids toLoad _ t htE
          exact hlt
  | settle i outs =>
    simp only [stepCmd]
    rcases hd : s.drains.get? i with _ | d
    · exact ⟨w1, w2, w3, w4⟩
    · cases d with
      | sleeping => exact ⟨w1, w2, w3, w4⟩
      | done => exact ⟨w1, w2, w3, w4⟩
      | awaitingBatch ts gen =>
        obtain ⟨sf1, sf2, sf3, sf4, sf5⟩ := settleBatchTasks_frame gen ts outs s
        obtain ⟨rf1, rf2, rf3, rf4, rf5, rf6⟩ :=
          resumeAfterSettle_frame (settleBatchTasks s gen ts outs)
        dsimp only
        refine ⟨?_, ?_, ?_, ?_⟩
        · intro hne
          rw [rf1, sf1] at hne
          obtain ⟨g, hg⟩ := w1 hne
          refine ⟨g, ?_⟩
          show (resumeAfterSettle (settleBatchTasks s gen ts outs)).1.controller = some g
          rw [rf4, sf4]
          exact hg
        · intro ts' g' hmem
          rw [rf2, sf2] at hmem
          rcases List.mem_or_eq_of_mem_set hmem with hm | hm
          · obtain ⟨n, hg, disj⟩ := w2 ts' g' hm
            refine ⟨n, hg, ?_⟩
            rcases disj with hab | hctrl
            · refine Or.inl ?_
              show n ∈ (resumeAfterSettle (settleBatchTasks s gen ts outs)).1.aborted
              rw [rf3, sf3]
              exact hab
            · refine Or.inr ?_
              show (resumeAfterSettle (settleBatchTasks s gen ts outs)).1.controller = some n
              rw [rf4, sf4]
              exact hctrl
          · exact absurd hm.symm (rf6 ts' g')
        · intro t ht
          rw [rf1, sf1] at ht
          show t.taskId < (resumeAfterSettle (settleBatchTasks s gen ts outs)).1.nextTask
          rw [rf5, sf5]
          exact w3 t ht
        · intro d hd' t ht
          show t.taskId < (resumeAfterSettle (settleBatchTasks s gen ts outs)).1.nextTask
          rw [rf5, sf5]
          rw [rf2, sf2] at hd'
          rcases List.mem_or_eq_of_mem_set hd' with hm | hm
          · exact w4 d hm t ht
          · subst hm
            have : fetchingOf (resumeAfterSettle (settleBatchTasks s gen ts outs)).2 = [] := by
              cases hpc : (resumeAfterSettle (settleBatchTasks s gen ts outs)).2 with
              | awaitingBatch ts'' g'' => exact absurd hpc (rf6 ts'' g'')
              | sleeping => rfl
              | done => rfl
            rw [this] at ht
            cases ht
  | wake i =>
    simp only [stepCmd]
    rcases hd : s.drains.get? i with _ | d
    · exact ⟨w1, w2, w3, w4⟩
    · cases d with
      | awaitingBatch ts gen => exact ⟨w1, w2, w3, w4⟩
      | done => exact ⟨w1, w2, w3, w4⟩
      | sleeping =>
        obtain ⟨d1, d2, d3, d4, d5, d6, d7, d8⟩ := drainRun_facts s 0
        dsimp only
        refine ⟨?_, ?_, ?_, ?_⟩
        · intro hne
          have : s.queue ≠ [] := by
            intro h0
            rcases hq' : (drainRun s).1.queue with _ | ⟨t, rest⟩
            · exact hne hq'
            · have := d5 t (by rw [hq']; exact List.mem_cons_self t rest)
              rw [h0] at this
              cases this
          obtain ⟨g, hg⟩ := w1 this
          refine ⟨g, ?_⟩
          show (drainRun s).1.controller = some g
          rw [d3]
          exact hg
        · intro ts' g' hmem
          rw [d1] at hmem
          rcases List.mem_or_eq_of_mem_set hmem with hm | hm
          · obtain ⟨n, hg, disj⟩ := w2 ts' g' hm
            refine ⟨n, hg, ?_⟩
            rcases disj with hab | hctrl
            · refine Or.inl ?_
              show n ∈ (drainRun s).1.aborted
              rw [d2]
              exact hab
            · refine Or.inr ?_
              show (drainRun s).1.controller = some n
              rw [d3]
              exact hctrl
          · obtain ⟨hg, hqne⟩ := d7 ts' g' hm.symm
            obtain ⟨n, hn⟩ := w1 hqne
            refine ⟨n, ?_, Or.inr ?_⟩
            · rw [hg]
              exact hn
            · show (drainRun s).1.controller = some n
              rw [d3]
              exact hn
        · intro t ht
          show t.taskId < (drainRun s).1.nextTask
          rw [d4]
          exact w3 t (d5 t ht)
        · intro d hd' t ht
          show t.taskId < (drainRun s).1.nextTask
          rw [d4]
          rw [d1] at hd'
          rcases List.mem_or_eq_of_mem_set hd' with hm | hm
          · exact w4 d hm t ht
          · subst hm
            exact w3 t (d6 t ht)

theorem runCmds_append (s : LoaderState) (l1 l2 : List Cmd) :
    runCmds s (l1 ++ l2) = runCmds (runCmds s l1) l2 := by
  induction l1 generalizing s with
  | nil => rfl
  | cons c cs ih => simp [runCmds, ih]

theorem runCmds_wf (cmds : List Cmd) :
    ∀ s : LoaderState, WFLoader s → WFLoader (runCmds s cmds) := by
  induction cmds with
  | nil => intro s h; exact h
  | cons c cs ih => intro s h; exact ih _ (stepCmd_wf s c h)

theorem run_suppressed (post : List Cmd) :
    ∀ (s : LoaderState) (tid : Nat), Suppressed s tid →
    callbackCount (runCmds s post) tid = callbackCount s tid := by
  induction post with
  | nil => intro s tid _; rfl
  | cons c cs ih =>
    intro s tid h
    obtain ⟨h1, h2⟩ := step_suppressed s c tid h
    rw [show runCmds s (c :: cs) = runCmds (stepCmd s c) cs from rfl, ih _ tid h1, h2]

theorem initLoader_wf : WFLoader initLoader := by
  refine ⟨fun h => absurd rfl h, fun ts g h => ?_, fun t h => ?_, fun d h => ?_⟩ <;> cases h

theorem suppressed_after_cancel (s : LoaderState) (t : LoadTask)
    (hwf : WFLoader s) (hp : taskPending s t) :
    Suppressed (cancelParticipantLoading s) t.taskId := by
  obtain ⟨w1, w2, w3, w4⟩ := hwf
  obtain ⟨cq, cd, cn, cmono, cctrl, ccb⟩ := cancel_facts s t.taskId
  refine ⟨?_, ?_, ?_⟩
  · rw [cq]
    intro t' ht'
    cases ht'
  · intro ts g hmem t' htt' htid'
    rw [cd] at hmem
    obtain ⟨n, hg, disj⟩ := w2 ts g hmem
    subst hg
    simp only [genAborted, List.elem_iff]
    rcases disj with hab | hctrl
    · exact cmono n hab
    · exact cctrl n hctrl
  · rw [cn]
    rcases hp with hin | ⟨d, hd, hbat⟩
    · exact w3 t hin
    · have : t ∈ fetchingOf d := by
        cases d with
        | awaitingBatch ts g =>
          simp only [inBatch] at hbat
          simpa [fetchingOf, List.elem_iff] using hbat
        | sleeping => simp [inBatch] at hbat
        | done => simp [inBatch] at hbat
      exact w4 d hd t this

end DashboardSpec

namespace DashboardSpec

theorem drainRun_bound (s : LoaderState) : outstandingOf (drainRun s).2 ≤ 5 := by
  unfold drainRun
  by_cases h1 : s.queue.isEmpty
  · rw [if_pos h1]
    simp [outstandingOf]
  · rw [if_neg h1]
    by_cases h2 : controllerAborted s
    · rw [if_pos h2]
      simp [outstandingOf]
    · rw [if_neg h2]
      dsimp only [outstandingOf]
      calc (issueBatch { s with queue := s.queue.drop 5 } (s.queue.take 5)).2.length
          ≤ (s.queue.take 5).length := (issueBatch_sublist _ _).length_le
        _ ≤ 5 := by simp

theorem resumeAfterSettle_outstanding (s : LoaderState) :
    outstandingOf (resumeAfterSettle s).2 = 0 := by
  unfold resumeAfterSettle
  split <;> rfl

theorem stepCmd_drain_bound (s : LoaderState) (c : Cmd)
    (h : ∀ d ∈ s.drains, outstandingOf d ≤ 5) :
    ∀ d ∈ (stepCmd s c).drains, outstandingOf d ≤ 5 := by
  cases c with
  | enqueue sps =>
    simp only [stepCmd]
    rcases enqueue_shape s sps with hs | hs | ⟨toLoad, hne, hs⟩
    · rw [hs]
      exact h
    · rw [hs]
      rw [(cancel_facts s 0).2.1]
      exact h
    · rw [hs]
      intro d hd
      dsimp only at hd
      rcases List.mem_append.mp hd with hm | hm
      · rw [(drainRun_facts (enqueueReady s toLoad) 0).1] at hm
        rw [show (enqueueReady s toLoad).drains = s.drains from (cancel_facts s 0).2.1] at hm
        exact h d hm
      · rw [List.mem_singleton] at hm
        subst hm
        exact drainRun_bound _
  | cancel =>
    simp only [stepCmd]
    rw [show (cancelParticipantLoading s).drains = s.drains from (cancel_facts s 0).2.1]
    exact h
  | settle i outs =>
    simp only [stepCmd]
    rcases hd : s.drains.get? i with _ | d
    · exact h
    · cases d with
      | sleeping => exact h
      | done => exact h
      | awaitingBatch ts gen =>
        intro d hd'
        dsimp only at hd'
        rw [(resumeAfterSettle_frame (settleBatchTasks s gen ts outs)).2.1,
          (settleBatchTasks_frame gen ts outs s).2.1] at hd'
        rcases List.mem_or_eq_of_mem_set hd' with hm | hm
        · exact h d hm
        · subst hm
          rw [resumeAfterSettle_outstanding]
          omega
  | wake i =>
    simp only [stepCmd]
    rcases hd : s.drains.get? i with _ | d
    · exact h
    · cases d with
      | awaitingBatch ts gen => exact h
      | done => exact h
      | sleeping =>
        intro d hd'
        dsimp only at hd'
        rw [(drainRun_facts s 0).1] at hd'
        rcases List.mem_or_eq_of_mem_set hd' with hm | hm
        · exact h d hm
        · subst hm
          exact drainRun_bound _

theorem runCmds_drain_bound (cmds : List Cmd) :
    ∀ s : LoaderState, (∀ d ∈ s.drains, outstandingOf d ≤ 5) →
    ∀ d ∈ (runCmds s cmds).drains, outstandingOf d ≤ 5 := by
  induction cmds with
  | nil => intro s h; exact h
  | cons c cs ih => intro s h; exact ih _ (stepCmd_drain_bound s c h)

end DashboardSpec

/-!
The claims.  Each theorem below settles one claim of the specification;
counterexamples are closed runs at concrete inputs, witnesses instantiate
every hypothesis of their theorem at concrete inputs.
-/

namespace DashboardSpec

/-- Claim C1: the claimed property — that a second enqueue call leaves the
first call's pending tasks queued and eventually processed — fails on the
code: `startBackgroundParticipantLoading` cancels the previous loading and
replaces the queue.  Evaluated on the failing input: six spaces enqueued,
then one more enqueued while `"a6"` is still queued; the task for `"a6"`
is pending after the first call, is discarded by the second (never fetched,
never called back, no longer pending anywhere), and the in-flight first
batch is aborted so only the second call's space ever reaches a callback. -/
theorem c1_enqueue_cancels_and_replaces :
    taskPending (runCmds initLoader (c1Trace.take 1)) ⟨5, "a6", "a6"⟩ ∧
    fetchesFor (runCmds initLoader c1Trace) "a6" = 0 ∧
    callbacksFor (runCmds initLoader c1Trace) "a6" = 0 ∧
    ¬ taskPending (runCmds initLoader c1Trace) ⟨5, "a6", "a6"⟩ ∧
    callbacksFor (runCmds initLoader c1Trace) "a1" = 0 ∧
    callbacksFor (runCmds initLoader c1Trace) "b1" = 1 := by
  decide

/-- Claim C2 (counterexample): the claim as stated is false.  In the
`ApiService` queue loader, a space whose fetch always fails with a non-404
failure is fetched exactly once, the queue is left empty and no drain is
active (so it is never re-appended or retried), and no cache entry is
written; and even where retry tracking exists (the Dashboard monitor),
exhausting the retries writes no explicit-absence cache entry. -/
theorem c2_no_retry_in_loader_counterexample :
    fetchesFor (runCmds initLoader c2LoaderTrace) "x" = 1 ∧
    (runCmds initLoader c2LoaderTrace).queue = [] ∧
    activeDrains (runCmds initLoader c2LoaderTrace) = 0 ∧
    (runCmds initLoader c2LoaderTrace).cache.lookup "x" = none ∧
    (dRun (initDash ["x"]) c2MonitorTrace).cache.lookup "x" = none := by
  decide

/-- Claim C2 (amended): the queue loader never retries — a non-404 failure
leaves the whole loader state (queue, cache, log) unchanged for that task.
Retry lives in the Dashboard's periodic monitor: a space whose fetch always
fails with a non-404 failure is fetched exactly three times, its retry
counter reaching the maximum of 3, after which it is removed from the
needing set with no callback and no explicit-absence cache entry, and
every later monitor tick leaves the state unchanged. -/
theorem c2_monitor_retry_amended (k : Nat) (s : LoaderState) (t : LoadTask) (m : String)
    (hm : includes404 m = false) :
    settleTask s t (FetchOutcome.failure m) = s ∧
    dRun (initDash ["x"]) (c2MonitorTrace ++ List.replicate k DCmd.tick) =
      dRun (initDash ["x"]) c2MonitorTrace ∧
    (dRun (initDash ["x"]) c2MonitorTrace).fetches = ["x", "x", "x"] ∧
    (dRun (initDash ["x"]) c2MonitorTrace).callbacks = [] ∧
    (dRun (initDash ["x"]) c2MonitorTrace).needing = [] ∧
    (dRun (initDash ["x"]) c2MonitorTrace).cache.lookup "x" = none := by
  refine ⟨?_, ?_, by decide, by decide, by decide, by decide⟩
  · unfold settleTask
    simp [hm]
  · rw [dRun_append]
    exact dRun_replicate_tick _ (by decide) k

/-- Witness for C2's amended theorem at `k = 5` with the transport failure
message `"network error"`. -/
theorem c2_monitor_retry_amended_witness :
    includes404 "network error" = false ∧
    (settleTask initLoader ⟨0, "x", "x"⟩ (FetchOutcome.failure "network error") = initLoader ∧
     dRun (initDash ["x"]) (c2MonitorTrace ++ List.replicate 5 DCmd.tick) =
       dRun (initDash ["x"]) c2MonitorTrace ∧
     (dRun (initDash ["x"]) c2MonitorTrace).fetches = ["x", "x", "x"] ∧
     (dRun (initDash ["x"]) c2MonitorTrace).callbacks = [] ∧
     (dRun (initDash ["x"]) c2MonitorTrace).needing = [] ∧
     (dRun (initDash ["x"]) c2MonitorTrace).cache.lookup "x" = none) :=
  ⟨by decide, c2_monitor_retry_amended 5 initLoader ⟨0, "x", "x"⟩ "network error" (by decide)⟩

/-- Claim C3: after a 404 the cache does hold the explicit `null` (distinct
from no entry), but re-enqueuing the same space issues a second network
request, because both the enqueue filter and the cache check in
`getSpaceParticipants` are truthiness tests, for which `null` is a miss —
contradicting the code's own comment that the `null` is cached "to avoid
repeated requests". -/
theorem c3_null_entry_refetch :
    (runCmds initLoader c3Trace).cache.lookup "x" = some none ∧
    fetchesFor (runCmds initLoader c3Trace) "x" = 2 := by
  decide

/-- Claim C4: the single-drain-loop invariant fails across a
cancel-and-re-enqueue sequence.  `cancelParticipantLoading` resets
`isLoadingParticipants` while a drain invocation is suspended in its
inter-batch pause, and the re-enqueue replaces the abort controller, so
the suspended loop never observes a cancellation: when its timer fires it
resumes against the new queue while the new loop's batch is still in
flight — two drain invocations active at once, ten fetches outstanding. -/
theorem c4_overlapping_drains :
    activeDrains (runCmds initLoader c4Trace) = 2 ∧
    outstandingTotal (runCmds initLoader c4Trace) = 10 := by
  decide

/-- Claim C5 (counterexample): "at most 5 outstanding at every instant" is
false — the same cancel-and-re-enqueue interleaving that breaks the
single-drain invariant reaches a state with six fetches outstanding. -/
theorem c5_concurrency_counterexample :
    5 < outstandingTotal (runCmds initLoader c5Trace) := by
  decide

/-- Claim C5 (amended): each single drain invocation is bounded — in every
reachable loader state every drain holds at most 5 outstanding fetches
(batches are `splice(0, 5)` prefixes of the FIFO queue, as the sublist
conjunct states), the loop waits for the whole batch to settle, pauses
200ms between batches when work remains and exits silently when none does.
The global bound only fails when drain invocations overlap. -/
theorem c5_batch_bound_amended (cmds : List Cmd) (d : DrainPC) (s s' s'' : LoaderState)
    (hd : d ∈ (runCmds initLoader cmds).drains)
    (hq : s.queue ≠ []) (hab : controllerAborted s = false)
    (hq' : s'.queue ≠ []) (hq'' : s''.queue = []) :
    outstandingOf d ≤ 5 ∧
    (drainRun s).1.queue = s.queue.drop 5 ∧
    (fetchingOf (drainRun s).2).Sublist (s.queue.take 5) ∧
    (resumeAfterSettle s').2 = DrainPC.sleeping ∧
    (resumeAfterSettle s').1.log = s'.log ++ [Event.paused 200] ∧
    (resumeAfterSettle s'').2 = DrainPC.done ∧
    (resumeAfterSettle s'').1.log = s''.log := by
  refine ⟨runCmds_drain_bound cmds initLoader (by intro d hd'; cases hd') d hd,
    ?_, ?_, ?_, ?_, ?_, ?_⟩
  · unfold drainRun
    rw [if_neg (by simpa using hq), if_neg (by simp [hab])]
    exact (issueBatch_frame 0 (s.queue.take 5) { s with queue := s.queue.drop 5 }).1
  · unfold drainRun
    rw [if_neg (by simpa using hq), if_neg (by simp [hab])]
    exact issueBatch_sublist _ _
  · unfold resumeAfterSettle
    rw [if_neg (by simpa using hq')]
  · unfold resumeAfterSettle
    rw [if_neg (by simpa using hq')]
  · unfold resumeAfterSettle
    rw [if_pos (by simpa using hq'')]
  · unfold resumeAfterSettle
    rw [if_pos (by simpa using hq'')]

/-- Witness for C5's amended theorem: the drain spawned by enqueuing seven
spaces holds five fetches; a state with a non-empty queue and live
controller splices a batch and pauses; a drained state exits. -/
theorem c5_batch_bound_amended_witness :
    DrainPC.awaitingBatch
        [⟨0, "a0", "a0"⟩, ⟨1, "a1", "a1"⟩, ⟨2, "a2", "a2"⟩,
         ⟨3, "a3", "a3"⟩, ⟨4, "a4", "a4"⟩] (some 0) ∈
      (runCmds initLoader [Cmd.enqueue sevenA]).drains ∧
    (runCmds initLoader [Cmd.enqueue sevenA]).queue ≠ [] ∧
    controllerAborted (runCmds initLoader [Cmd.enqueue sevenA]) = false ∧
    (runCmds initLoader [Cmd.enqueue sevenA]).queue ≠ [] ∧
    initLoader.queue = [] ∧
    (outstandingOf (DrainPC.awaitingBatch
        [⟨0, "a0", "a0"⟩, ⟨1, "a1", "a1"⟩, ⟨2, "a2", "a2"⟩,
         ⟨3, "a3", "a3"⟩, ⟨4, "a4", "a4"⟩] (some 0)) ≤ 5 ∧
     (drainRun (runCmds initLoader [Cmd.enqueue sevenA])).1.queue =
       (runCmds initLoader [Cmd.enqueue sevenA]).queue.drop 5 ∧
     (fetchingOf (drainRun (runCmds initLoader [Cmd.enqueue sevenA])).2).Sublist
       ((runCmds initLoader [Cmd.enqueue sevenA]).queue.take 5) ∧
     (resumeAfterSettle (runCmds initLoader [Cmd.enqueue sevenA])).2 = DrainPC.sleeping ∧
     (resumeAfterSettle (runCmds initLoader [Cmd.enqueue sevenA])).1.log =
       (runCmds initLoader [Cmd.enqueue sevenA]).log ++ [Event.paused 200] ∧
     (resumeAfterSettle initLoader).2 = DrainPC.done ∧
     (resumeAfterSettle initLoader).1.log = initLoader.log) :=
  ⟨by decide, by decide, by decide, by decide, by decide,
   c5_batch_bound_amended [Cmd.enqueue sevenA] _ _ _ initLoader
     (by decide) (by decide) (by decide) (by decide) (by decide)⟩

/-- Claim C6: cancellation suppresses callbacks.  For every schedule, any
task still queued or in flight when `cancelParticipantLoading` runs
receives no further `onLoaded` invocation in any continuation of the run:
queued copies are cleared with the queue, and every batch holding the task
captured a generation that the cancel aborts, so its fetch can only settle
as the `'Request cancelled'` rejection, which runs no callback. -/
theorem c6_cancel_suppresses_callbacks (pre post : List Cmd) (t : LoadTask)
    (hp : taskPending (runCmds initLoader pre) t) :
    callbackCount (runCmds initLoader (pre ++ Cmd.cancel :: post)) t.taskId =
    callbackCount (runCmds initLoader (pre ++ [Cmd.cancel])) t.taskId := by
  rw [runCmds_append, runCmds_append]
  have hwf : WFLoader (runCmds initLoader pre) := runCmds_wf pre initLoader initLoader_wf
  have hsup := suppressed_after_cancel (runCmds initLoader pre) t hwf hp
  exact run_suppressed post _ t.taskId hsup

/-- Claim C6 witness: the task for `"a6"`, pending when the cancel lands,
receives no callback across the replacement enqueue and all subsequent
batch settlements, even though the network answers success everywhere. -/
theorem c6_cancel_suppresses_callbacks_witness :
    taskPending (runCmds initLoader c6Pre) ⟨5, "a6", "a6"⟩ ∧
    callbackCount (runCmds initLoader (c6Pre ++ Cmd.cancel :: c6Post)) 5 =
      callbackCount (runCmds initLoader (c6Pre ++ [Cmd.cancel])) 5 := by
  refine ⟨?_, c6_cancel_suppresses_callbacks c6Pre c6Post ⟨5, "a6", "a6"⟩ (by decide)⟩
  decide

/-- Claim C7: pagination monotonicity.  The scroll trigger is a strict
no-op while a page fetch is in flight or when `hasMore` is false; neither
a scroll nor a page completion ever decreases the offset (only an explicit
reload resets it to zero); and in every successful listing session whose
pages respect the requested limit, the issued request offsets strictly
increase and the consumed windows are chained and non-overlapping. -/
theorem c7_pagination_monotone :
    (∀ s : PageState, s.isLoading = true → scrollTrigger s = s) ∧
    (∀ s : PageState, s.hasMore = false → scrollTrigger s = s) ∧
    (∀ (s : PageState) (r : Option PageResp),
      s.currentOffset ≤ (pStep s PCmd.scroll).currentOffset ∧
      s.currentOffset ≤ (pStep s (PCmd.moreResp r)).currentOffset) ∧
    (∀ (p0 : PageResp) (ps : List PageResp),
      (∀ p ∈ p0 :: ps, p.1.length ≤ pageSize) →
      List.Pairwise (fun q q' : Nat × Nat => q.1 < q'.1)
        (pRun initPage (sessionTrace p0 ps)).reqs ∧
      Chained 0 (pRun initPage (sessionTrace p0 ps)).windows) := by
  refine ⟨?_, ?_, ?_, ?_⟩
  · intro s h
    unfold scrollTrigger
    simp [h]
  · intro s h
    unfold scrollTrigger
    simp [h]
  · intro s r
    constructor
    · simp only [pStep]
      unfold scrollTrigger
      split <;> simp
    · simp only [pStep]
      unfold loadMoreResp
      rcases hp : s.pending with _ | o
      · simp
      · rcases r with _ | ⟨data, hm⟩
        · simp
        · simp only
          split <;> simp
  · intro p0 ps hlen
    have h0 := session_init p0.1 p0.2 (hlen p0 (List.mem_cons_self p0 ps))
    have h := session_run ps _ h0 fun p hp => hlen p (List.mem_cons_of_mem p0 hp)
    unfold sessionTrace
    rw [show (PCmd.reload (some p0) :: (ps.map fun p =>
      [PCmd.scroll, PCmd.moreResp (some p)]).flatten) =
      [PCmd.reload (some p0)] ++ (ps.map fun p =>
      [PCmd.scroll, PCmd.moreResp (some p)]).flatten from rfl, pRun_append]
    exact ⟨h.2.2.2.2.1, h.2.2.1⟩

/-- Claim C7 witness: the guards at concrete guarded states, offset
monotonicity at the fresh dashboard, and a three-page successful session
(20 items, 20 items, empty) with strictly increasing requests and chained
windows. -/
theorem c7_pagination_monotone_witness :
    scrollTrigger { initPage with isLoading := true } =
      { initPage with isLoading := true } ∧
    scrollTrigger { initPage with hasMore := false } =
      { initPage with hasMore := false } ∧
    (initPage.currentOffset ≤ (pStep initPage PCmd.scroll).currentOffset ∧
     initPage.currentOffset ≤ (pStep initPage (PCmd.moreResp none)).currentOffset) ∧
    (List.Pairwise (fun q q' : Nat × Nat => q.1 < q'.1)
      (pRun initPage (sessionTrace (page20, true) [(page20, true), ([], true)])).reqs ∧
     Chained 0 (pRun initPage
       (sessionTrace (page20, true) [(page20, true), ([], true)])).windows) :=
  ⟨c7_pagination_monotone.1 _ rfl,
   c7_pagination_monotone.2.1 _ rfl,
   c7_pagination_monotone.2.2.1 initPage none,
   c7_pagination_monotone.2.2.2 (page20, true) [(page20, true), ([], true)] (by decide)⟩

/-- Claim C8 (counterexample): auto-pagination is not halted by a page-load
failure.  After a successful first page, a failed `loadMoreSpaces` shows
the toast (not the inline error) and the next scroll re-requests the same
offset window; after a failed first page the inline error is shown and a
scroll still requests offset 0 again — in both runs a further automatic
request follows the failure with no reload in between. -/
theorem c8_failure_retries_counterexample :
    (pRun initPage c8MoreTrace).reqs = [(0, 20), (20, 20), (20, 20)] ∧
    (pRun initPage c8MoreTrace).toastShown = true ∧
    (pRun initPage c8MoreTrace).inlineError = false ∧
    (pRun initPage c8FirstTrace).reqs = [(0, 20), (0, 20)] ∧
    (pRun initPage c8FirstTrace).inlineError = true := by
  decide

/-- Claim C8 (amended): a failed `loadMoreSpaces` response shows the
transient message, leaves `hasMore` and the offset unchanged and clears
`isLoading`, so when more pages remain the next scroll issues a request at
the same offset; a failed `loadSpaces` shows the inline error with
`hasMore` reset to true and the offset at 0.  Nothing halts
scroll-triggered pagination until guards change for another reason. -/
theorem c8_failure_no_halt_amended (s : PageState) (o : Nat) (hp : s.pending = some o) :
    (loadMoreResp s none).hasMore = s.hasMore ∧
    (loadMoreResp s none).currentOffset = s.currentOffset ∧
    (loadMoreResp s none).isLoading = false ∧
    (loadMoreResp s none).toastShown = true ∧
    (loadMoreResp s none).inlineError = s.inlineError ∧
    (s.hasMore = true →
      (scrollTrigger (loadMoreResp s none)).reqs =
        (loadMoreResp s none).reqs ++ [(s.currentOffset, pageSize)]) ∧
    (loadSpaces s none).inlineError = true ∧
    (loadSpaces s none).hasMore = true ∧
    (loadSpaces s none).currentOffset = 0 := by
  have hL : loadMoreResp s none =
      { s with toastShown := true, isLoading := false, pending := none } := by
    unfold loadMoreResp
    rw [hp]
  rw [hL]
  refine ⟨rfl, rfl, rfl, rfl, rfl, ?_, ?_, ?_, ?_⟩
  · intro hm
    unfold scrollTrigger
    simp [hm]
  · unfold loadSpaces
    simp
  · unfold loadSpaces
    simp
  · unfold loadSpaces
    simp

/-- Witness for C8's amended theorem at the state reached by a successful
first page and a scroll, whose request at offset 20 is in flight. -/
theorem c8_failure_no_halt_amended_witness :
    (pRun initPage [PCmd.reload (some (page20, true)), PCmd.scroll]).pending = some 20 ∧
    ((loadMoreResp (pRun initPage [PCmd.reload (some (page20, true)), PCmd.scroll]) none).hasMore =
       (pRun initPage [PCmd.reload (some (page20, true)), PCmd.scroll]).hasMore ∧
     (loadMoreResp (pRun initPage [PCmd.reload (some (page20, true)), PCmd.scroll]) none).currentOffset =
       (pRun initPage [PCmd.reload (some (page20, true)), PCmd.scroll]).currentOffset ∧
     (loadMoreResp (pRun initPage [PCmd.reload (some (page20, true)), PCmd.scroll]) none).isLoading = false ∧
     (loadMoreResp (pRun initPage [PCmd.reload (some (page20, true)), PCmd.scroll]) none).toastShown = true ∧
     (loadMoreResp (pRun initPage [PCmd.reload (some (page20, true)), PCmd.scroll]) none).inlineError =
       (pRun initPage [PCmd.reload (some (page20, true)), PCmd.scroll]).inlineError ∧
     ((pRun initPage [PCmd.reload (some (page20, true)), PCmd.scroll]).hasMore = true →
       (scrollTrigger (loadMoreResp (pRun initPage
           [PCmd.reload (some (page20, true)), PCmd.scroll]) none)).reqs =
         (loadMoreResp (pRun initPage
           [PCmd.reload (some (page20, true)), PCmd.scroll]) none).reqs ++
           [((pRun initPage [PCmd.reload (some (page20, true)), PCmd.scroll]).currentOffset,
             pageSize)]) ∧
     (loadSpaces (pRun initPage [PCmd.reload (some (page20, true)), PCmd.scroll]) none).inlineError = true ∧
     (loadSpaces (pRun initPage [PCmd.reload (some (page20, true)), PCmd.scroll]) none).hasMore = true ∧
     (loadSpaces (pRun initPage [PCmd.reload (some (page20, true)), PCmd.scroll]) none).currentOffset = 0) :=
  ⟨by decide,
   c8_failure_no_halt_amended (pRun initPage [PCmd.reload (some (page20, true)), PCmd.scroll])
     20 (by decide)⟩

/-- Claim C9: display sort order.  `sortSpaces` returns a permutation of
its input in which every live space precedes every ended space, and within
each liveness group the resolved timestamps (first available of
lastUpdated, endedAt, startedAt, createdAt) are in descending order. -/
theorem c9_sort_order (l : List Space) :
    (sortSpaces l).Perm l ∧
    (sortSpaces l).Pairwise (fun a b =>
      (b.isLive → a.isLive) ∧
      (a.isLive = b.isLive → getRelevantDate b ≤ getRelevantDate a)) := by
  refine ⟨List.mergeSort_perm l _, ?_⟩
  have h := @List.sorted_mergeSort Space
    (fun a b => decide (sortComparator a b ≤ 0)) sortLe_trans sortLe_total l
  exact h.imp fun hab => (sortComparator_le_iff _ _).mp (by simpa using hab)

-- Claim C9 witness: the sort evaluated on a mixed list — live spaces
-- first, each group in descending timestamp order.  (`mergeSort` is
-- defined by well-founded recursion, so it is unsealed for evaluation.)
unseal List.merge List.mergeSort in
theorem c9_sort_order_witness :
    (sortSpaces c9List).Perm c9List ∧
    (sortSpaces c9List).Pairwise (fun a b =>
      (b.isLive → a.isLive) ∧
      (a.isLive = b.isLive → getRelevantDate b ≤ getRelevantDate a)) ∧
    (sortSpaces c9List).map Space._id = ["l2", "l1", "e2", "e1"] := by
  refine ⟨(c9_sort_order c9List).1, (c9_sort_order c9List).2, ?_⟩
  decide

/-- Claim C10: cache atomicity on error.  A `getSpaceParticipants` call
whose request fails with a message not containing '404' leaves the cache
exactly as it was; a cache hit makes no request and no write; on a miss, a
fulfilled fetch stores the roster and a 404-classified failure stores the
explicit `null` — no other outcome mutates the cache. -/
theorem c10_cache_atomicity (c : Cache) (id : SpaceId) (m m4 : String) (r : Roster)
    (hnot : includes404 m = false) (hyes : includes404 m4 = true) :
    (getSpaceParticipants c id (FetchOutcome.failure m)).cache = c ∧
    (cacheTruthy c id = true →
      (getSpaceParticipants c id (FetchOutcome.success r)).cache = c ∧
      (getSpaceParticipants c id (FetchOutcome.success r)).requested = false) ∧
    (cacheTruthy c id = false →
      (getSpaceParticipants c id (FetchOutcome.success r)).cache.lookup id = some (some r) ∧
      (getSpaceParticipants c id (FetchOutcome.failure m4)).cache.lookup id = some none) := by
  unfold getSpaceParticipants cacheTruthy
  rcases h : c.lookup id with _ | ⟨_ | r'⟩ <;>
    simp [h, hnot, hyes, List.lookup]

/-- Claim C10 witness: the cache discipline evaluated on an empty cache
with a non-404 failure, a 404 failure, and a fulfilled roster. -/
theorem c10_cache_atomicity_witness :
    includes404 "network error" = false ∧
    includes404 "HTTP 404: Not Found" = true ∧
    ((getSpaceParticipants [] "x" (FetchOutcome.failure "network error")).cache = [] ∧
     (cacheTruthy [] "x" = true →
       (getSpaceParticipants [] "x" (FetchOutcome.success roster1)).cache = [] ∧
       (getSpaceParticipants [] "x" (FetchOutcome.success roster1)).requested = false) ∧
     (cacheTruthy [] "x" = false →
       (getSpaceParticipants [] "x" (FetchOutcome.success roster1)).cache.lookup "x" =
         some (some roster1) ∧
       (getSpaceParticipants [] "x"
         (FetchOutcome.failure "HTTP 404: Not Found")).cache.lookup "x" = some none)) :=
  ⟨by decide, by decide,
   c10_cache_atomicity [] "x" "network error" "HTTP 404: Not Found" roster1
     (by decide) (by decide)⟩

end DashboardSpec
